import Mathlib

/-!
Verification of the vefaas-deploy deployment pipeline: a shallow embedding of
the pipeline orchestrator (`src/components/DeployApp.tsx`), the control-plane
client (`src/lib/faas-client.ts`) and the request signer
(`src/lib/volcengine-signer.ts`), with theorems checking the natural-language
specification against it.

External effects (subprocess exit codes, HTTP responses, poll statuses, the
wall clock, cryptographic primitives) are modelled as explicit parameters; the
embedded functions mirror the TypeScript control flow over those parameters.
Wall-clock durations recorded on steps are modelled as `0` (the spec never uses
them in control decisions). JavaScript truthiness on strings is modelled as
"non-empty", and on optional values as `Option.isSome` composed with the
string case where the source applies `||` to strings.
-/

namespace VefaasDeploy

/-- JS `a || b` on an optional string: `b` when `a` is absent or empty. -/
def jsOr (a : Option String) (b : String) : String :=
  match a with
  | some s => if s = "" then b else s
  | none => b

/-! ## Step registry (src/lib/types.ts, src/components/DeployApp.tsx) -/

/-- `StepStatus` from src/lib/types.ts. -/
inductive StepStatus where
  | pending
  | running
  | success
  | error
  | skipped
deriving DecidableEq, Repr

/-- `Step` from src/lib/types.ts. -/
structure Step where
  id : String
  name : String
  status : StepStatus
  message : Option String := none
  duration : Option Nat := none
deriving DecidableEq, Repr

/-- Default step used with `List.getD` when indexing the registry. -/
def dummyStep : Step := ⟨"", "", .pending, none, none⟩

/-- A `Partial<Step>` as passed to `updateStep`: each field is present or
absent; the `id`/`name` fields are never updated by the orchestrator. -/
structure StepUpdate where
  status : Option StepStatus := none
  message : Option String := none
  duration : Option Nat := none
deriving DecidableEq, Repr

/-- The object spread `{ ...s, ...updates }` in `updateStep`. -/
def applyUpdate (s : Step) (u : StepUpdate) : Step :=
  { s with
    status := u.status.getD s.status
    message := match u.message with | some m => some m | none => s.message
    duration := match u.duration with | some d => some d | none => s.duration }

/-- A recorded status transition: step id, status before, status after.
One entry per step record touched by an `updateStep` call. -/
abbrev Tr := String × StepStatus × StepStatus

/-- `updateStep` from DeployApp.tsx (lines 37-39): map over the registry,
merging the update into every step whose id matches.  Also returns the list
of status transitions this call performed, for stating the monotonicity
invariant. -/
def updateStepT (steps : List Step) (id : String) (u : StepUpdate) :
    List Step × List Tr :=
  (steps.map (fun s => if s.id == id then applyUpdate s u else s),
   steps.filterMap (fun s =>
     if s.id == id then some (id, s.status, (applyUpdate s u).status) else none))

/-- Status of the first step with the given id (the registry is keyed by id). -/
def statusOf (steps : List Step) (id : String) : Option StepStatus :=
  (steps.find? (fun s => s.id == id)).map Step.status

/-- The transitions the spec forbids: `running` back to `pending`, or any
change away from a terminal (`success`/`error`/`skipped`) status. -/
def violatesMonotone (old new : StepStatus) : Bool :=
  (old == .running && new == .pending) ||
  ((old == .success || old == .error || old == .skipped) && new != old)

/-! ## Configuration and options (src/lib/config.ts, src/lib/types.ts) -/

/-- One service entry of `ProjectConfig.services` (src/lib/config.ts). -/
structure ServiceConfig where
  functionId : String
  dockerfile : String
  context : String
  imageName : String
  platform : Option String := none
deriving DecidableEq, Repr

/-- `ProjectConfig.registry`. -/
structure RegistryConfig where
  url : String
  namespc : String
deriving DecidableEq, Repr

/-- `ProjectConfig` (services as an insertion-ordered association list,
mirroring JS object key order). -/
structure ProjectConfig where
  name : String
  registry : RegistryConfig
  services : List (String × ServiceConfig)
deriving DecidableEq, Repr

/-- `DeployOptions` from src/lib/types.ts; `services = none` models the
field being absent. -/
structure DeployOptions where
  services : Option (List String) := none
  versions : List (String × String) := []
  skipBuild : Bool := false
  skipPush : Bool := false
  dryRun : Bool := false
deriving DecidableEq, Repr

/-- `getVolcengineCredentials` result (strings, possibly empty). -/
structure Credentials where
  accessKeyId : String
  secretAccessKey : String
  region : String
deriving DecidableEq, Repr

/-- `getImageTag` from src/lib/config.ts. -/
def getImageTag (registry : RegistryConfig) (imageName version : String) : String :=
  registry.url ++ "/" ++ registry.namespc ++ "/" ++ imageName ++ ":" ++ version

/-- `options.services?.length ? options.services : Object.keys(config.services)`
(DeployApp.tsx lines 52-54 and 94-96). -/
def servicesToDeploy (cfg : ProjectConfig) (opts : DeployOptions) : List String :=
  match opts.services with
  | some l => if l.length != 0 then l else cfg.services.map Prod.fst
  | none => cfg.services.map Prod.fst

/-- The six steps planned for one service (DeployApp.tsx lines 58-67). -/
def stepBlock (opts : DeployOptions) (n : String) : List Step :=
  [ { id := n ++ "-build", name := "Build " ++ n,
      status := if opts.skipBuild then .skipped else .pending },
    { id := n ++ "-push", name := "Push " ++ n,
      status := if opts.skipPush then .skipped else .pending },
    { id := n ++ "-update", name := "Update " ++ n, status := .pending },
    { id := n ++ "-sync", name := "Sync " ++ n, status := .pending },
    { id := n ++ "-release", name := "Release " ++ n, status := .pending },
    { id := n ++ "-wait-release", name := "Wait Release " ++ n, status := .pending } ]

/-- The step-planning effect (DeployApp.tsx lines 51-69). -/
def planSteps (cfg : ProjectConfig) (opts : DeployOptions) : List Step :=
  (servicesToDeploy cfg opts).flatMap (stepBlock opts)

/-- The ids of one service's planned block. -/
def blockIds (n : String) : List String :=
  [n ++ "-build", n ++ "-push", n ++ "-update", n ++ "-sync",
   n ++ "-release", n ++ "-wait-release"]

/-- The `faasClient` construction guard (DeployApp.tsx lines 88-91): a client
exists iff not dry-run and both credential strings are non-empty (JS
truthiness). -/
def mkFaasClient (opts : DeployOptions) (creds : Credentials) : Bool :=
  !opts.dryRun && creds.accessKeyId != "" && creds.secretAccessKey != ""

/-- A service's six steps still carry their planned initial statuses. -/
def okAt (steps : List Step) (opts : DeployOptions) (n : String) : Prop :=
  statusOf steps (n ++ "-build") =
    some (if opts.skipBuild then .skipped else .pending)
  ∧ statusOf steps (n ++ "-push") =
    some (if opts.skipPush then .skipped else .pending)
  ∧ statusOf steps (n ++ "-update") = some .pending
  ∧ statusOf steps (n ++ "-sync") = some .pending
  ∧ statusOf steps (n ++ "-release") = some .pending
  ∧ statusOf steps (n ++ "-wait-release") = some .pending

/-- What one phase guarantees relative to its pre-state: every recorded
transition is monotone, the registry's id sequence is unchanged, and steps
outside `touched` keep their status. -/
def PhaseFacts (steps : List Step) (touched : List String)
    (r : List Step × List Tr × Option String) : Prop :=
  (∀ t ∈ r.2.1, violatesMonotone t.2.1 t.2.2 = false)
  ∧ r.1.map Step.id = steps.map Step.id
  ∧ ∀ id', id' ∉ touched → statusOf r.1 id' = statusOf steps id'

/-! ## The deploy effect (DeployApp.tsx lines 73-233)

External outcomes are supplied by an `Env`: each subprocess / remote call is a
function of the arguments the orchestrator passes it, returning the outcome the
outside world produced.  The two poll phases additionally yield the list of
statuses the progress callback observed before the poll resolved. -/

/-- Outcomes of all external effects of one run. -/
structure Env where
  dockerAvailable : Bool
  credentials : Credentials
  /-- `buildServiceImage(projectRoot, config, serviceName, version, log)`. -/
  buildResult : String → String → Except String Unit
  /-- `pushDockerImage({imageTag})`. -/
  pushResult : String → Except String Unit
  /-- `faasClient.updateFunction(functionId, imageTag)`. -/
  updateResult : String → String → Except String Unit
  /-- `faasClient.waitForImageSync(functionId, imageTag, ...)`: the statuses
  reported to `onProgress`, then the outcome. -/
  syncRun : String → String → List String × Except String Unit
  /-- `faasClient.release(functionId)`. -/
  releaseResult : String → Except String Unit
  /-- `faasClient.waitForRelease(functionId, ...)`. -/
  waitReleaseRun : String → List String × Except String Unit

/-- Sequencing with abort: run the continuation only when the first part did
not throw, concatenating the transition traces (models sequential `await`s
inside the surrounding try block). -/
def andThen (r : List Step × List Tr × Option String)
    (k : List Step → List Step × List Tr × Option String) :
    List Step × List Tr × Option String :=
  match r with
  | (s, t, some e) => (s, t, some e)
  | (s, t, none) =>
    match k s with
    | (s', t', e) => (s', t ++ t', e)

/-- The `running` → invoke → terminal pattern shared by the build, push,
update and release phases. -/
def execStep (steps : List Step) (id : String) (outcome : Except String Unit)
    (done : StepUpdate) : List Step × List Tr × Option String :=
  match updateStepT steps id { status := some .running } with
  | (s1, t1) =>
    match outcome with
    | .error e => (s1, t1, some e)
    | .ok _ =>
      match updateStepT s1 id done with
      | (s2, t2) => (s2, t1 ++ t2, none)

/-- The `onProgress` callback of a poll phase: one message-only update per
observed status (DeployApp.tsx lines 174-176 and 203-205). -/
def progressFold (steps : List Step) (id : String) :
    List String → List Step × List Tr
  | [] => (steps, [])
  | st :: rest =>
    match updateStepT steps id { message := some st } with
    | (s1, t1) =>
      match progressFold s1 id rest with
      | (s2, t2) => (s2, t1 ++ t2)

/-- The `running` → poll (with progress messages) → terminal pattern shared by
the sync and wait-release phases. -/
def execPoll (steps : List Step) (id : String) (observed : List String)
    (outcome : Except String Unit) (done : StepUpdate) :
    List Step × List Tr × Option String :=
  match updateStepT steps id { status := some .running } with
  | (s1, t1) =>
    match progressFold s1 id observed with
    | (s2, t2) =>
      match outcome with
      | .error e => (s2, t1 ++ t2, some e)
      | .ok _ =>
        match updateStepT s2 id done with
        | (s3, t3) => (s3, t1 ++ t2 ++ t3, none)

/-- Build phase (DeployApp.tsx lines 112-131). -/
def buildPhase (env : Env) (opts : DeployOptions) (n version imageTag : String)
    (steps : List Step) : List Step × List Tr × Option String :=
  if opts.skipBuild then (steps, [], none)
  else execStep steps (n ++ "-build") (env.buildResult n version)
    { status := some .success, message := some imageTag, duration := some 0 }

/-- Push phase (DeployApp.tsx lines 134-149). -/
def pushPhase (env : Env) (opts : DeployOptions) (n imageTag : String)
    (steps : List Step) : List Step × List Tr × Option String :=
  if opts.skipPush then (steps, [], none)
  else execStep steps (n ++ "-push") (env.pushResult imageTag)
    { status := some .success, duration := some 0 }

/-- FaaS phases or the skip branch (DeployApp.tsx lines 152-219). -/
def faasPhase (env : Env) (faas : Bool) (n : String) (svc : ServiceConfig)
    (imageTag : String) (steps : List Step) :
    List Step × List Tr × Option String :=
  if faas && svc.functionId != "" then
    andThen (execStep steps (n ++ "-update")
        (env.updateResult svc.functionId imageTag)
        { status := some .success, duration := some 0 }) (fun s =>
      andThen (execPoll s (n ++ "-sync")
          (env.syncRun svc.functionId imageTag).1
          (env.syncRun svc.functionId imageTag).2
          { status := some .success, duration := some 0 }) (fun s =>
        andThen (execStep s (n ++ "-release") (env.releaseResult svc.functionId)
            { status := some .success, duration := some 0 }) (fun s =>
          execPoll s (n ++ "-wait-release")
            (env.waitReleaseRun svc.functionId).1
            (env.waitReleaseRun svc.functionId).2
            { status := some .success, duration := some 0 })))
  else
    let reason := if !faas then "No credentials" else "No function ID"
    match updateStepT steps (n ++ "-update")
        { status := some .skipped, message := some reason } with
    | (s1, t1) =>
      match updateStepT s1 (n ++ "-sync")
          { status := some .skipped, message := some reason } with
      | (s2, t2) =>
        match updateStepT s2 (n ++ "-release")
            { status := some .skipped, message := some reason } with
        | (s3, t3) =>
          match updateStepT s3 (n ++ "-wait-release")
              { status := some .skipped, message := some reason } with
          | (s4, t4) => (s4, t1 ++ t2 ++ t3 ++ t4, none)

/-- One iteration of the per-service loop (DeployApp.tsx lines 98-220):
a service name missing from the config is logged and skipped. -/
def deployService (env : Env) (cfg : ProjectConfig) (opts : DeployOptions)
    (faas : Bool) (n : String) (steps : List Step) :
    List Step × List Tr × Option String :=
  match cfg.services.lookup n with
  | none => (steps, [], none)
  | some svc =>
    let version := jsOr (opts.versions.lookup n) "latest"
    let imageTag := getImageTag cfg.registry svc.imageName version
    andThen (buildPhase env opts n version imageTag steps) (fun s =>
      andThen (pushPhase env opts n imageTag s) (fun s =>
        faasPhase env faas n svc imageTag s))

/-- The `for ... of servicesToDeploy` loop: the first raised failure aborts
the remaining services. -/
def deployGo (env : Env) (cfg : ProjectConfig) (opts : DeployOptions)
    (faas : Bool) : List String → List Step → List Step × List Tr × Option String
  | [], steps => (steps, [], none)
  | n :: rest, steps =>
    match deployService env cfg opts faas n steps with
    | (s', t', some e) => (s', t', some e)
    | (s', t', none) =>
      match deployGo env cfg opts faas rest s' with
      | (s'', t'', e) => (s'', t' ++ t'', e)

/-- Terminal values of the `phase` state (the transient intermediate values of
`setPhase` are not modelled; only `done`/`error` survive the run). -/
inductive DeployPhase where
  | init | build | push | sync | update | release | done | error
deriving DecidableEq, Repr

/-- Result of one run: the final step registry, the recorded status
transitions, the terminal phase and the surfaced error. -/
structure RunResult where
  phase : DeployPhase
  steps : List Step
  trace : List Tr
  error : Option String
deriving Repr

/-- The whole `deploy` function wrapped in its try/catch (DeployApp.tsx lines
76-230), preceded by the step-planning effect. -/
def runDeploy (env : Env) (cfg : ProjectConfig) (opts : DeployOptions) :
    RunResult :=
  let steps0 := planSteps cfg opts
  if !env.dockerAvailable then
    { phase := .error, steps := steps0, trace := [],
      error := some "Docker is not available. Please install and start Docker." }
  else
    let faas := mkFaasClient opts env.credentials
    match deployGo env cfg opts faas (servicesToDeploy cfg opts) steps0 with
    | (steps, tr, some e) => { phase := .error, steps, trace := tr, error := some e }
    | (steps, tr, none) => { phase := .done, steps, trace := tr, error := none }

/-! ## Control-plane client (src/lib/faas-client.ts) -/

/-- `ResponseMetadata.Error` of the response envelope (src/lib/types.ts). -/
structure ApiErrorInfo where
  Code : String
  Message : String
deriving DecidableEq, Repr

/-- `ResponseMetadata` of the response envelope. -/
structure ResponseMetadataT where
  RequestId : String
  Action : String
  Version : String
  Service : String
  Region : String
  Error : Option ApiErrorInfo := none
deriving DecidableEq, Repr

/-- `FaaSResponse<T>`: the parsed response envelope; `Result = none` models the
field being absent (or JSON `null`/falsy, which the source's `!data.Result`
treats identically). -/
structure FaaSResponseT (T : Type) where
  ResponseMetadata : ResponseMetadataT
  Result : Option T := none
deriving DecidableEq, Repr

/-- `JSON.stringify` of `ResponseMetadata.Error`. -/
def stringifyError (e : ApiErrorInfo) : String :=
  "\x7b\"Code\":\"" ++ e.Code ++ "\",\"Message\":\"" ++ e.Message ++ "\"\x7d"

/-- `JSON.stringify` of `ResponseMetadata` (fields in declaration order). -/
def stringifyMetadata (m : ResponseMetadataT) : String :=
  "\x7b\"RequestId\":\"" ++ m.RequestId ++ "\",\"Action\":\"" ++ m.Action ++
  "\",\"Version\":\"" ++ m.Version ++ "\",\"Service\":\"" ++ m.Service ++
  "\",\"Region\":\"" ++ m.Region ++ "\"" ++
  (match m.Error with
   | some e => ",\"Error\":" ++ stringifyError e
   | none => "") ++ "\x7d"

/-- `JSON.stringify(data)` of the whole envelope, given a serializer for the
`Result` payload. -/
def stringifyEnvelope {T : Type} (serializeT : T → String)
    (r : FaaSResponseT T) : String :=
  "\x7b\"ResponseMetadata\":" ++ stringifyMetadata r.ResponseMetadata ++
  (match r.Result with
   | some v => ",\"Result\":" ++ serializeT v
   | none => "") ++ "\x7d"

/-- `mid` occurs contiguously inside `s`. -/
def midOf (s mid : String) : Prop := ∃ a b, s = a ++ mid ++ b

/-- `Response.ok` of the fetch API: HTTP status in the range 200-299. -/
def responseOk (status : Nat) : Bool :=
  200 ≤ status && status ≤ 299

/-- `FaaSClient.request` (faas-client.ts lines 57-106), applied to the parsed
response the transport produced: throws when the status is not 2xx or `Result`
is absent, otherwise returns `Result`. -/
def requestModel {T : Type} (serializeT : T → String) (action : String)
    (status : Nat) (data : FaaSResponseT T) : Except String T :=
  if !responseOk status || data.Result.isNone then
    .error ("FaaS API Error [" ++ action ++ "]: " ++ toString status ++ " - " ++
      stringifyEnvelope serializeT data)
  else
    match data.Result with
    | some r => .ok r
    | none =>
      -- unreachable: `data.Result.isNone = false` in this branch
      .error ("FaaS API Error [" ++ action ++ "]: " ++ toString status ++ " - " ++
        stringifyEnvelope serializeT data)

/-! ## Poll loops (faas-client.ts lines 176-227)

The status-fetching call is modelled as a function of the call index; the only
suspension consuming modelled time is the `setTimeout` sleep, so after `k`
sleeps the elapsed wall-clock time is `k * interval`.  The `while` loop is
embedded with explicit fuel; `fuelOut` marks runs the fuel could not finish
(it never occurs in any theorem below, whose fuel hypotheses cover the run). -/

/-- `ImageSyncStatus` (the fields the poll loop reads). -/
structure ImageSyncStatusT where
  Status : String
  Description : Option String := none
deriving DecidableEq, Repr

/-- `ReleaseInfo` (the fields the poll loop reads). -/
structure ReleaseInfoT where
  Status : String
  StatusMessage : Option String := none
  ErrorCode : Option String := none
deriving DecidableEq, Repr

/-- Outcome of a poll loop. -/
inductive PollOutcome where
  | ok
  | err (msg : String)
  | fuelOut
deriving DecidableEq, Repr

/-- A finished poll: outcome, number of `fetchStatus` calls, and the statuses
passed to `onProgress` in order. -/
structure PollTrace where
  outcome : PollOutcome
  calls : Nat
  progress : List String
deriving DecidableEq, Repr

/-- The `while` loop of `waitForImageSync` (faas-client.ts lines 184-199).
`progRev` accumulates the `onProgress` statuses in reverse. -/
def waitForImageSyncAux (fetch : Nat → ImageSyncStatusT)
    (timeout interval : Nat) :
    Nat → Nat → Nat → List String → PollTrace
  | 0, _, calls, progRev => ⟨.fuelOut, calls, progRev.reverse⟩
  | fuel + 1, elapsed, calls, progRev =>
    if elapsed < timeout then
      let status := fetch calls
      let progRev' := status.Status :: progRev
      if status.Status = "Succeeded" then
        ⟨.ok, calls + 1, progRev'.reverse⟩
      else if status.Status = "Failed" ∨ status.Status = "Canceled" then
        ⟨.err ("Image sync failed: " ++ jsOr status.Description status.Status),
         calls + 1, progRev'.reverse⟩
      else
        waitForImageSyncAux fetch timeout interval fuel (elapsed + interval)
          (calls + 1) progRev'
    else
      ⟨.err "Image sync timeout", calls, progRev.reverse⟩

/-- `waitForImageSync` (faas-client.ts lines 176-200): `none` options take the
defaults `timeout = 300000`, `interval = 5000`. -/
def waitForImageSync (fetch : Nat → ImageSyncStatusT)
    (timeout? interval? : Option Nat) (fuel : Nat) : PollTrace :=
  waitForImageSyncAux fetch (timeout?.getD 300000) (interval?.getD 5000)
    fuel 0 0 []

/-- The `while` loop of `waitForRelease` (faas-client.ts lines 212-226). -/
def waitForReleaseAux (fetch : Nat → ReleaseInfoT)
    (timeout interval : Nat) :
    Nat → Nat → Nat → List String → PollTrace
  | 0, _, calls, progRev => ⟨.fuelOut, calls, progRev.reverse⟩
  | fuel + 1, elapsed, calls, progRev =>
    if elapsed < timeout then
      let status := fetch calls
      let progRev' := status.Status :: progRev
      if status.Status = "done" then
        ⟨.ok, calls + 1, progRev'.reverse⟩
      else if status.Status = "failed" then
        ⟨.err ("Release failed: " ++
           jsOr status.StatusMessage (jsOr status.ErrorCode "Unknown error")),
         calls + 1, progRev'.reverse⟩
      else
        waitForReleaseAux fetch timeout interval fuel (elapsed + interval)
          (calls + 1) progRev'
    else
      ⟨.err "Release timeout", calls, progRev.reverse⟩

/-- `waitForRelease` (faas-client.ts lines 205-227): `none` options take the
defaults `timeout = 300000`, `interval = 3000`. -/
def waitForRelease (fetch : Nat → ReleaseInfoT)
    (timeout? interval? : Option Nat) (fuel : Nat) : PollTrace :=
  waitForReleaseAux fetch (timeout?.getD 300000) (interval?.getD 3000)
    fuel 0 0 []

/-! ## Request signer (src/lib/volcengine-signer.ts)

The cryptographic primitives (`crypto.createHash('sha256')`,
`crypto.createHmac('sha256', key)`) are modelled as abstract functions supplied
in a `CryptoPrims` record; byte buffers are `List Nat`.  The wall clock is
modelled by passing the ISO timestamp string `new Date().toISOString()`
produced at signing time. -/

/-- JS default `Array.sort()` comparison on one pair of strings: lexicographic
by code unit. -/
def charListLe : List Char → List Char → Bool
  | [], _ => true
  | _ :: _, [] => false
  | a :: as, b :: bs =>
    if a.toNat < b.toNat then true
    else if b.toNat < a.toNat then false
    else charListLe as bs

/-- String comparison used by key sorting. -/
def strLeB (a b : String) : Bool := charListLe a.data b.data

/-- Insertion step of a stable sort. -/
def insertSorted (a : String) : List String → List String
  | [] => [a]
  | b :: rest => if strLeB a b then a :: b :: rest else b :: insertSorted a rest

/-- JS `keys.sort()`: sort lexicographically (stable; keys here are distinct). -/
def sortStrings (l : List String) : List String := l.foldr insertSorted []

/-- UTF-8 bytes of one character (as `encodeURIComponent` encodes them). -/
def utf8Bytes (c : Char) : List Nat :=
  let n := c.toNat
  if n < 128 then [n]
  else if n < 2048 then [192 + n / 64, 128 + n % 64]
  else if n < 65536 then [224 + n / 4096, 128 + (n / 64) % 64, 128 + n % 64]
  else [240 + n / 262144, 128 + (n / 4096) % 64, 128 + (n / 64) % 64, 128 + n % 64]

/-- Upper-case hex digit. -/
def hexDigitU (n : Nat) : Char :=
  if n < 10 then Char.ofNat (48 + n) else Char.ofNat (55 + n)

/-- Two upper-case hex digits of a byte. -/
def hexByteU (n : Nat) : String :=
  String.mk [hexDigitU (n / 16), hexDigitU (n % 16)]

/-- The characters `encodeURIComponent` leaves unescaped:
`A-Z a-z 0-9 - _ . ! ~ * ' ( )`. -/
def unreservedChar (c : Char) : Bool :=
  let n := c.toNat
  (65 ≤ n && n ≤ 90) || (97 ≤ n && n ≤ 122) || (48 ≤ n && n ≤ 57) ||
  n == 45 || n == 95 || n == 46 || n == 33 || n == 126 || n == 42 ||
  n == 39 || n == 40 || n == 41

/-- `encodeURIComponent` on one character. -/
def uriEncodeChar (c : Char) : String :=
  if unreservedChar c then String.singleton c
  else ((utf8Bytes c).map (fun b => "%" ++ hexByteU b)).foldl (· ++ ·) ""

/-- `encodeURIComponent`. -/
def uriEncode (s : String) : String :=
  (s.data.map uriEncodeChar).foldl (· ++ ·) ""

/-- The second `replace` of the x-date derivation: drop the first occurrence
of a dot followed by three digits (the milliseconds of the ISO timestamp). -/
def stripMsL : List Char → List Char
  | '.' :: a :: b :: c :: rest =>
    if a.isDigit && b.isDigit && c.isDigit then rest
    else '.' :: stripMsL (a :: b :: c :: rest)
  | c :: rest => c :: stripMsL rest
  | [] => []
termination_by l => l.length

/-- `now.toISOString().slice(0, 10)` with all dashes removed (signer line
241). -/
def dateStampOf (nowIso : String) : String :=
  String.mk ((nowIso.take 10).data.filter (fun c => c != '-'))

/-- `now.toISOString()` with all dashes and colons removed and the
milliseconds group dropped (signer line 242). -/
def xDateOf (nowIso : String) : String :=
  String.mk (stripMsL (nowIso.data.filter (fun c => !(c == '-' || c == ':'))))

/-- JS `map[key]` on an object modelled as an association list (keys are
looked up among the object's own keys, so the default is never hit). -/
def jsLookup (q : List (String × String)) (k : String) : String :=
  (q.lookup k).getD ""

/-- `VolcengineSigner`'s constructor configuration. -/
structure SignerConfig where
  accessKeyId : String
  secretAccessKey : String
  region : String
  service : String

/-- `RequestOptions` as `sign` consumes it (the unused `headers` field is
omitted; an absent body hashes like the empty string, which `body = ""`
models). -/
structure SignRequest where
  method : String
  host : String
  path : String
  query : Option (List (String × String)) := none
  body : String := ""

/-- The cryptographic primitives `sign` calls, as abstract functions. -/
structure CryptoPrims where
  sha256hex : String → String
  hmacStr : String → String → List Nat
  hmacBytes : List Nat → String → List Nat
  hmacHexBytes : List Nat → String → String

/-- `getCanonicalQueryString` (signer lines 230-236). -/
def getCanonicalQueryString (query : Option (List (String × String))) : String :=
  match query with
  | none => ""
  | some q =>
    if q.isEmpty then ""
    else
      String.intercalate "&"
        ((sortStrings (q.map Prod.fst)).map
          (fun k => uriEncode k ++ "=" ++ uriEncode (jsLookup q k)))

/-- `VolcengineSigner.sign` (signer lines 238-307). -/
def signModel (crypto : CryptoPrims) (config : SignerConfig) (nowIso : String)
    (options : SignRequest) : List (String × String) :=
  let dateStamp := dateStampOf nowIso
  let xDate := xDateOf nowIso
  let bodyHash := crypto.sha256hex options.body
  let headersToSign : List (String × String) :=
    [("host", options.host), ("x-date", xDate),
     ("x-content-sha256", bodyHash), ("content-type", "application/json")]
  let sortedKeys := sortStrings (headersToSign.map Prod.fst)
  let canonicalHeaders :=
    String.intercalate "\n"
      (sortedKeys.map (fun k => k ++ ":" ++ (jsLookup headersToSign k).trim))
    ++ "\n"
  let signedHeaders := String.intercalate ";" sortedKeys
  let canonicalQueryString := getCanonicalQueryString options.query
  let canonicalRequest :=
    String.intercalate "\n"
      [options.method, options.path, canonicalQueryString, canonicalHeaders,
       signedHeaders, bodyHash]
  let algorithm := "HMAC-SHA256"
  let credentialScope :=
    dateStamp ++ "/" ++ config.region ++ "/" ++ config.service ++ "/request"
  let stringToSign :=
    String.intercalate "\n"
      [algorithm, xDate, credentialScope, crypto.sha256hex canonicalRequest]
  let kDate := crypto.hmacStr config.secretAccessKey dateStamp
  let kRegion := crypto.hmacBytes kDate config.region
  let kService := crypto.hmacBytes kRegion config.service
  let kSigning := crypto.hmacBytes kService "request"
  let signature := crypto.hmacHexBytes kSigning stringToSign
  let authorization :=
    algorithm ++ " Credential=" ++ config.accessKeyId ++ "/" ++ credentialScope
    ++ ", SignedHeaders=" ++ signedHeaders ++ ", Signature=" ++ signature
  [("Host", options.host), ("X-Date", xDate),
   ("X-Content-Sha256", bodyHash), ("Content-Type", "application/json"),
   ("Authorization", authorization)]

/-! ## Concrete scenario data (used by witnesses and counterexamples) -/

/-- All external effects succeed; credentials configured. -/
def envBase : Env where
  dockerAvailable := true
  credentials := ⟨"ak", "sk", "cn-beijing"⟩
  buildResult := fun _ _ => .ok ()
  pushResult := fun _ => .ok ()
  updateResult := fun _ _ => .ok ()
  syncRun := fun _ _ => (["Running", "Succeeded"], .ok ())
  releaseResult := fun _ => .ok ()
  waitReleaseRun := fun _ => (["done"], .ok ())

/-- `envBase` but the push subprocess exits non-zero with the given stderr. -/
def envPushFail (msg : String) : Env :=
  { envBase with pushResult := fun _ => .error msg }

/-- `envBase` but no credentials are configured. -/
def envNoCreds : Env :=
  { envBase with credentials := ⟨"", "", "cn-beijing"⟩ }

/-- The `api` service of the end-to-end scenario. -/
def svcApi : ServiceConfig :=
  ⟨"fid-api", "deployments/docker/Dockerfile", ".", "proj-api", some "linux/amd64"⟩

/-- The `worker` service of the end-to-end scenario. -/
def svcWorker : ServiceConfig :=
  ⟨"fid-worker", "deployments/docker/Dockerfile", ".", "proj-worker", none⟩

/-- A service with no configured remote function identifier. -/
def svcNoFid : ServiceConfig := ⟨"", "Dockerfile", ".", "img", none⟩

/-- Two-service project config of the spec's scenarios. -/
def cfgTwo : ProjectConfig :=
  ⟨"proj", ⟨"reg.cr.volces.com", "ns"⟩, [("api", svcApi), ("worker", svcWorker)]⟩

/-- Options of the spec's scenarios: deploy all, explicit versions. -/
def optsTwo : DeployOptions :=
  { versions := [("api", "v1.0.1"), ("worker", "v0.3.0")] }

/-- One service without function id. -/
def cfgNoFid : ProjectConfig := ⟨"p", ⟨"r", "n"⟩, [("a", svcNoFid)]⟩

/-- A selection naming the same service twice. -/
def optsDup : DeployOptions := { services := some ["a", "a"] }

/-- Default options with dry-run switched on. -/
def optsDry : DeployOptions := { dryRun := true }

/-- Image-sync fetch: non-terminal twice, then `Succeeded`. -/
def fetchSyncOk : Nat → ImageSyncStatusT :=
  fun n => if n < 2 then ⟨"Running", none⟩ else ⟨"Succeeded", none⟩

/-- Image-sync fetch that never reaches a terminal status. -/
def fetchSyncPend : Nat → ImageSyncStatusT := fun _ => ⟨"Pending", none⟩

/-- Release fetch that succeeds immediately. -/
def fetchRelOk : Nat → ReleaseInfoT := fun _ => ⟨"done", none, none⟩

/-- Release fetch that never reaches a terminal status. -/
def fetchRelPend : Nat → ReleaseInfoT := fun _ => ⟨"inprogress", none, none⟩

/-- Dummy crypto primitives for evaluating the signer on concrete input. -/
def cryptoDummy : CryptoPrims :=
  ⟨fun s => "sha(" ++ s ++ ")", fun _ s => [s.length], fun k s => s.length :: k,
   fun k s => "hmac(" ++ toString k.length ++ "," ++ s ++ ")"⟩

/-! ## Helper lemmas: poll loops -/

/-- The number of fetch calls never decreases as the image-sync loop runs. -/
theorem imageSyncAux_calls_ge (fetch : Nat → ImageSyncStatusT) (t i : Nat) :
    ∀ fuel elapsed calls prog,
      calls ≤ (waitForImageSyncAux fetch t i fuel elapsed calls prog).calls := by
  intro fuel
  induction fuel with
  | zero => intro elapsed calls prog; simp [waitForImageSyncAux]
  | succ k ih =>
    intro elapsed calls prog
    simp only [waitForImageSyncAux]
    split
    · split
      · simp
      · split
        · simp
        · exact le_trans (Nat.le_succ calls) (ih _ _ _)
    · simp

/-- The number of fetch calls never decreases as the release loop runs. -/
theorem releaseAux_calls_ge (fetch : Nat → ReleaseInfoT) (t i : Nat) :
    ∀ fuel elapsed calls prog,
      calls ≤ (waitForReleaseAux fetch t i fuel elapsed calls prog).calls := by
  intro fuel
  induction fuel with
  | zero => intro elapsed calls prog; simp [waitForReleaseAux]
  | succ k ih =>
    intro elapsed calls prog
    simp only [waitForReleaseAux]
    split
    · split
      · simp
      · split
        · simp
        · exact le_trans (Nat.le_succ calls) (ih _ _ _)
    · simp

/-- One loop iteration with time left makes at least one more fetch call. -/
theorem imageSyncAux_calls_succ (fetch : Nat → ImageSyncStatusT)
    (t i fuel elapsed calls : Nat) (prog : List String) (h : elapsed < t) :
    calls + 1 ≤
      (waitForImageSyncAux fetch t i (fuel + 1) elapsed calls prog).calls := by
  simp only [waitForImageSyncAux, if_pos h]
  split
  · simp
  · split
    · simp
    · exact imageSyncAux_calls_ge fetch t i fuel _ _ _

/-- One loop iteration with time left makes at least one more fetch call. -/
theorem releaseAux_calls_succ (fetch : Nat → ReleaseInfoT)
    (t i fuel elapsed calls : Nat) (prog : List String) (h : elapsed < t) :
    calls + 1 ≤
      (waitForReleaseAux fetch t i (fuel + 1) elapsed calls prog).calls := by
  simp only [waitForReleaseAux, if_pos h]
  split
  · simp
  · split
    · simp
    · exact releaseAux_calls_ge fetch t i fuel _ _ _

/-- C3: The image-sync poll treats status `Succeeded` as terminal success and
`Failed`/`Canceled` as terminal failure, with default timeout 300000 ms and
default interval 5000 ms; the release poll treats `done` as terminal success
and `failed` as terminal failure, with default timeout 300000 ms and default
interval 3000 ms; in both, any other observed status causes another poll
iteration (a second fetch call happens). -/
theorem spec_c3 (fetchI : Nat → ImageSyncStatusT) (fetchR : Nat → ReleaseInfoT)
    (fuel : Nat) (hfuel : 2 ≤ fuel) :
    (waitForImageSync fetchI none none fuel =
      waitForImageSyncAux fetchI 300000 5000 fuel 0 0 [])
    ∧ (waitForRelease fetchR none none fuel =
      waitForReleaseAux fetchR 300000 3000 fuel 0 0 [])
    ∧ ((fetchI 0).Status = "Succeeded" →
        waitForImageSync fetchI none none fuel = ⟨.ok, 1, ["Succeeded"]⟩)
    ∧ ((fetchI 0).Status = "Failed" ∨ (fetchI 0).Status = "Canceled" →
        (waitForImageSync fetchI none none fuel).outcome =
          .err ("Image sync failed: " ++
            jsOr (fetchI 0).Description (fetchI 0).Status))
    ∧ ((fetchI 0).Status ≠ "Succeeded" → (fetchI 0).Status ≠ "Failed" →
        (fetchI 0).Status ≠ "Canceled" →
        2 ≤ (waitForImageSync fetchI none none fuel).calls)
    ∧ ((fetchR 0).Status = "done" →
        waitForRelease fetchR none none fuel = ⟨.ok, 1, ["done"]⟩)
    ∧ ((fetchR 0).Status = "failed" →
        (waitForRelease fetchR none none fuel).outcome =
          .err ("Release failed: " ++ jsOr (fetchR 0).StatusMessage
            (jsOr (fetchR 0).ErrorCode "Unknown error")))
    ∧ ((fetchR 0).Status ≠ "done" → (fetchR 0).Status ≠ "failed" →
        2 ≤ (waitForRelease fetchR none none fuel).calls) := by
  obtain ⟨k, rfl⟩ : ∃ k, fuel = k + 2 := ⟨fuel - 2, by omega⟩
  refine ⟨rfl, rfl, ?_, ?_, ?_, ?_, ?_, ?_⟩
  · intro h
    simp [waitForImageSync, waitForImageSyncAux, h]
  · intro h
    have hns : (fetchI 0).Status ≠ "Succeeded" := by
      rcases h with h | h <;> simp [h]
    rcases h with h | h <;>
      simp [waitForImageSync, waitForImageSyncAux, h, hns]
  · intro h1 h2 h3
    have : waitForImageSync fetchI none none (k + 2) =
        waitForImageSyncAux fetchI 300000 5000 (k + 1) (0 + 5000) 1
          [(fetchI 0).Status] := by
      simp [waitForImageSync]
      rw [show k + 2 = (k + 1) + 1 by omega]
      simp [waitForImageSyncAux, h1, h2, h3]
    rw [this]
    exact imageSyncAux_calls_succ fetchI _ _ k _ 1 _ (by omega)
  · intro h
    simp [waitForRelease, waitForReleaseAux, h]
  · intro h
    have hns : (fetchR 0).Status ≠ "done" := by simp [h]
    simp [waitForRelease, waitForReleaseAux, h, hns]
  · intro h1 h2
    have : waitForRelease fetchR none none (k + 2) =
        waitForReleaseAux fetchR 300000 3000 (k + 1) (0 + 3000) 1
          [(fetchR 0).Status] := by
      simp [waitForRelease]
      rw [show k + 2 = (k + 1) + 1 by omega]
      simp [waitForReleaseAux, h1, h2]
    rw [this]
    exact releaseAux_calls_succ fetchR _ _ k _ 1 _ (by omega)

/-- Witness for C3 at concrete inputs. -/
theorem spec_c3_witness :
    2 ≤ 2 ∧
    ((waitForImageSync (fun _ => ⟨"Succeeded", none⟩) none none 2 =
        ⟨.ok, 1, ["Succeeded"]⟩) ∧
     (waitForRelease fetchRelOk none none 2 = ⟨.ok, 1, ["done"]⟩)) := by
  have h := spec_c3 (fun _ => ⟨"Succeeded", none⟩) fetchRelOk 2 (by decide)
  exact ⟨by decide, h.2.2.1 rfl, h.2.2.2.2.2.1 rfl⟩

/-- C8: If the status-fetching function first returns terminal success on its
3rd call and the interval is 0, the poll loop returns normally after exactly 3
fetch calls, the progress callback sees exactly the three observed statuses
(including the terminal one) in order, and nothing after the terminal one. -/
theorem spec_c8 (fetch : Nat → ImageSyncStatusT) (fuel : Nat) (hfuel : 3 ≤ fuel)
    (h0s : (fetch 0).Status ≠ "Succeeded") (h0f : (fetch 0).Status ≠ "Failed")
    (h0c : (fetch 0).Status ≠ "Canceled")
    (h1s : (fetch 1).Status ≠ "Succeeded") (h1f : (fetch 1).Status ≠ "Failed")
    (h1c : (fetch 1).Status ≠ "Canceled")
    (h2 : (fetch 2).Status = "Succeeded") :
    waitForImageSync fetch none (some 0) fuel =
      ⟨.ok, 3, [(fetch 0).Status, (fetch 1).Status, "Succeeded"]⟩ := by
  obtain ⟨k, rfl⟩ : ∃ k, fuel = k + 3 := ⟨fuel - 3, by omega⟩
  rw [show k + 3 = ((k + 2) + 1) by omega]
  simp only [waitForImageSync, Option.getD]
  rw [waitForImageSyncAux]
  simp only [if_pos (by omega : (0 : Nat) < 300000), if_neg h0s,
    if_neg (by simp [h0f, h0c] : ¬((fetch 0).Status = "Failed" ∨
      (fetch 0).Status = "Canceled"))]
  rw [show k + 2 = (k + 1) + 1 by omega, waitForImageSyncAux]
  simp only [if_pos (by omega : (0 + 0 : Nat) < 300000), if_neg h1s,
    if_neg (by simp [h1f, h1c] : ¬((fetch 1).Status = "Failed" ∨
      (fetch 1).Status = "Canceled"))]
  rw [waitForImageSyncAux]
  simp [h2]

/-- Witness for C8 at a concrete fetch sequence. -/
theorem spec_c8_witness :
    3 ≤ 3 ∧ (fetchSyncOk 0).Status ≠ "Succeeded" ∧
    (fetchSyncOk 2).Status = "Succeeded" ∧
    waitForImageSync fetchSyncOk none (some 0) 3 =
      ⟨.ok, 3, ["Running", "Running", "Succeeded"]⟩ := by
  refine ⟨by decide, by decide, by decide, ?_⟩
  have h := spec_c8 fetchSyncOk 3 (by decide) (by decide) (by decide)
    (by decide) (by decide) (by decide) (by decide) (by decide)
  simpa using h

/-- C9: If the status-fetching function never returns a terminal status and
the timeout is smaller than one interval, both poll loops fail with their
timeout error — an error distinct from every remote-failure error — and never
return success. -/
theorem spec_c9 (fetchI : Nat → ImageSyncStatusT) (fetchR : Nat → ReleaseInfoT)
    (t i fuel : Nat) (hti : t < i) (hfuel : 2 ≤ fuel)
    (hI : ∀ n, (fetchI n).Status ≠ "Succeeded" ∧ (fetchI n).Status ≠ "Failed" ∧
      (fetchI n).Status ≠ "Canceled")
    (hR : ∀ n, (fetchR n).Status ≠ "done" ∧ (fetchR n).Status ≠ "failed") :
    (waitForImageSync fetchI (some t) (some i) fuel).outcome =
      .err "Image sync timeout"
    ∧ (waitForRelease fetchR (some t) (some i) fuel).outcome =
      .err "Release timeout"
    ∧ (waitForImageSync fetchI (some t) (some i) fuel).outcome ≠ .ok
    ∧ (waitForRelease fetchR (some t) (some i) fuel).outcome ≠ .ok
    ∧ (∀ d, "Image sync timeout" ≠ "Image sync failed: " ++ d)
    ∧ (∀ d, "Release timeout" ≠ "Release failed: " ++ d) := by
  obtain ⟨k, rfl⟩ : ∃ k, fuel = k + 2 := ⟨fuel - 2, by omega⟩
  have hImg : (waitForImageSync fetchI (some t) (some i) (k + 2)).outcome =
      .err "Image sync timeout" := by
    simp only [waitForImageSync, Option.getD]
    rw [show k + 2 = ((k + 1) + 1) by omega, waitForImageSyncAux]
    by_cases h0 : (0 : Nat) < t
    · simp only [if_pos h0, if_neg (hI 0).1,
        if_neg (by simp [(hI 0).2.1, (hI 0).2.2] :
          ¬((fetchI 0).Status = "Failed" ∨ (fetchI 0).Status = "Canceled"))]
      rw [waitForImageSyncAux]
      have hni : ¬(i < t) := by omega
      simp [hni]
    · simp [if_neg h0]
  have hRel : (waitForRelease fetchR (some t) (some i) (k + 2)).outcome =
      .err "Release timeout" := by
    simp only [waitForRelease, Option.getD]
    rw [show k + 2 = ((k + 1) + 1) by omega, waitForReleaseAux]
    by_cases h0 : (0 : Nat) < t
    · simp only [if_pos h0, if_neg (hR 0).1, if_neg (hR 0).2]
      rw [waitForReleaseAux]
      have hni : ¬(i < t) := by omega
      simp [hni]
    · simp [if_neg h0]
  refine ⟨hImg, hRel, by simp [hImg], by simp [hRel], ?_, ?_⟩
  · intro d h
    have h2 := congrArg String.length h
    rw [String.length_append] at h2
    have e1 : "Image sync timeout".length = 18 := by rfl
    have e2 : "Image sync failed: ".length = 19 := by rfl
    omega
  · intro d h
    have h2 := congrArg String.length h
    rw [String.length_append] at h2
    have e1 : "Release timeout".length = 15 := by rfl
    have e2 : "Release failed: ".length = 16 := by rfl
    omega

/-- Witness for C9 at concrete never-terminal fetch sequences. -/
theorem spec_c9_witness :
    (2 : Nat) < 7 ∧ 2 ≤ 2 ∧
    (waitForImageSync fetchSyncPend (some 2) (some 7) 2).outcome =
      .err "Image sync timeout" ∧
    (waitForRelease fetchRelPend (some 2) (some 7) 2).outcome =
      .err "Release timeout" := by
  have hIp : ∀ n, (fetchSyncPend n).Status ≠ "Succeeded" ∧
      (fetchSyncPend n).Status ≠ "Failed" ∧
      (fetchSyncPend n).Status ≠ "Canceled" := fun _ =>
    show "Pending" ≠ "Succeeded" ∧ "Pending" ≠ "Failed" ∧
      "Pending" ≠ "Canceled" from by decide
  have hRp : ∀ n, (fetchRelPend n).Status ≠ "done" ∧
      (fetchRelPend n).Status ≠ "failed" := fun _ =>
    show "inprogress" ≠ "done" ∧ "inprogress" ≠ "failed" from by decide
  have h := spec_c9 fetchSyncPend fetchRelPend 2 7 2 (by decide) (by decide)
    hIp hRp
  exact ⟨by decide, by decide, h.1, h.2.1⟩

/-! ## Helper lemmas: substring occurrence -/

theorem midOf_pre (a mid : String) : midOf (a ++ mid) mid :=
  ⟨a, "", by rw [String.append_assoc, String.append_empty]⟩

theorem midOf_appendL (s t mid : String) (h : midOf s mid) :
    midOf (s ++ t) mid := by
  obtain ⟨a, b, rfl⟩ := h
  exact ⟨a, b ++ t, by rw [String.append_assoc (a ++ mid) b t]⟩

theorem midOf_appendR (s t mid : String) (h : midOf t mid) :
    midOf (s ++ t) mid := by
  obtain ⟨a, b, rfl⟩ := h
  exact ⟨s ++ a, b, by rw [← String.append_assoc, ← String.append_assoc]⟩

/-- C2: `FaaSClient.request` throws exactly when the HTTP status is not 2xx or
the envelope's `Result` is absent, regardless of `ResponseMetadata.Error`; the
thrown message includes the action name, the HTTP status and the serialized
response body, which embeds the error code/message when present; on a 2xx
response with `Result` present it returns that `Result`. -/
theorem spec_c2 {T : Type} (serializeT : T → String) (action : String)
    (status : Nat) (data : FaaSResponseT T) :
    ((∃ e, requestModel serializeT action status data = .error e) ↔
      (responseOk status = false ∨ data.Result = none))
    ∧ (∀ r, data.Result = some r → responseOk status = true →
        requestModel serializeT action status data = .ok r)
    ∧ (responseOk status = false ∨ data.Result = none →
        requestModel serializeT action status data =
          .error ("FaaS API Error [" ++ action ++ "]: " ++ toString status ++
            " - " ++ stringifyEnvelope serializeT data))
    ∧ (∀ e, data.ResponseMetadata.Error = some e →
        midOf (stringifyEnvelope serializeT data) e.Code ∧
        midOf (stringifyEnvelope serializeT data) e.Message) := by
  refine ⟨⟨?_, ?_⟩, ?_, ?_, ?_⟩
  · rintro ⟨e, he⟩
    cases h1 : responseOk status with
    | false => exact .inl rfl
    | true =>
      cases h2 : data.Result with
      | none => exact .inr rfl
      | some r => simp [requestModel, h1, h2] at he
  · rintro (h | h)
    · exact ⟨"FaaS API Error [" ++ action ++ "]: " ++ toString status ++
        " - " ++ stringifyEnvelope serializeT data, by simp [requestModel, h]⟩
    · exact ⟨"FaaS API Error [" ++ action ++ "]: " ++ toString status ++
        " - " ++ stringifyEnvelope serializeT data, by simp [requestModel, h]⟩
  · intro r hr hok
    simp [requestModel, hr, hok]
  · rintro (h | h)
    · simp [requestModel, h]
    · simp [requestModel, h]
  · intro e he
    constructor
    · simp only [stringifyEnvelope, stringifyMetadata, stringifyError, he]
      apply midOf_appendL
      apply midOf_appendL
      apply midOf_appendR
      apply midOf_appendL
      apply midOf_appendR
      apply midOf_appendR
      apply midOf_appendL
      apply midOf_appendL
      apply midOf_appendL
      exact midOf_pre _ _
    · simp only [stringifyEnvelope, stringifyMetadata, stringifyError, he]
      apply midOf_appendL
      apply midOf_appendL
      apply midOf_appendR
      apply midOf_appendL
      apply midOf_appendR
      apply midOf_appendR
      apply midOf_appendL
      exact midOf_pre _ _

/-- Witness for C2 at a concrete response. -/
theorem spec_c2_witness :
    (({ ResponseMetadata := ⟨"rid", "GetFunction", "2024-06-06", "vefaas",
          "cn-beijing", some ⟨"E1", "boom"⟩⟩,
        Result := none } : FaaSResponseT String).Result = none) ∧
    requestModel (fun s => "\"" ++ s ++ "\"") "GetFunction" 200
      { ResponseMetadata := ⟨"rid", "GetFunction", "2024-06-06", "vefaas",
          "cn-beijing", some ⟨"E1", "boom"⟩⟩, Result := none } =
      .error ("FaaS API Error [" ++ "GetFunction" ++ "]: " ++ toString 200 ++
        " - " ++ stringifyEnvelope (fun s => "\"" ++ s ++ "\"")
          { ResponseMetadata := ⟨"rid", "GetFunction", "2024-06-06", "vefaas",
              "cn-beijing", some ⟨"E1", "boom"⟩⟩, Result := none }) := by
  refine ⟨rfl, ?_⟩
  exact (spec_c2 (fun s => "\"" ++ s ++ "\"") "GetFunction" 200
    { ResponseMetadata := ⟨"rid", "GetFunction", "2024-06-06", "vefaas",
        "cn-beijing", some ⟨"E1", "boom"⟩⟩, Result := none }).2.2.1 (.inr rfl)

/-- C6: For every request and credential the signer emits exactly the five
headers `Host`, `X-Date`, `X-Content-Sha256`, `Content-Type`, `Authorization`;
the canonical request joins METHOD, PATH, the sorted percent-encoded query
string, the sorted lower-cased canonical headers (one `name:value` line each,
sorted to content-type, host, x-content-sha256, x-date), the signed-header
names joined with `;`, and the hex SHA-256 body hash, with newlines; the
signature is the hex HMAC-SHA256 of the string-to-sign under the key chained
over date, region, service and the literal `request` from the secret; and
`Authorization` is `ALGORITHM Credential=<key>/<scope>,
SignedHeaders=<signedHeaders>, Signature=<signature>`. -/
theorem spec_c6 (crypto : CryptoPrims) (config : SignerConfig) (nowIso : String)
    (options : SignRequest) :
    signModel crypto config nowIso options =
      [("Host", options.host),
       ("X-Date", xDateOf nowIso),
       ("X-Content-Sha256", crypto.sha256hex options.body),
       ("Content-Type", "application/json"),
       ("Authorization",
         "HMAC-SHA256 Credential=" ++ config.accessKeyId ++ "/" ++
           (dateStampOf nowIso ++ "/" ++ config.region ++ "/" ++
             config.service ++ "/request") ++
           ", SignedHeaders=" ++ "content-type;host;x-content-sha256;x-date" ++
           ", Signature=" ++
           crypto.hmacHexBytes
             (crypto.hmacBytes
               (crypto.hmacBytes
                 (crypto.hmacBytes
                   (crypto.hmacStr config.secretAccessKey (dateStampOf nowIso))
                   config.region)
                 config.service)
               "request")
             (String.intercalate "\n"
               ["HMAC-SHA256", xDateOf nowIso,
                dateStampOf nowIso ++ "/" ++ config.region ++ "/" ++
                  config.service ++ "/request",
                crypto.sha256hex
                  (String.intercalate "\n"
                    [options.method, options.path,
                     getCanonicalQueryString options.query,
                     String.intercalate "\n"
                       ["content-type:" ++ "application/json".trim,
                        "host:" ++ options.host.trim,
                        "x-content-sha256:" ++
                          (crypto.sha256hex options.body).trim,
                        "x-date:" ++ (xDateOf nowIso).trim] ++ "\n",
                     "content-type;host;x-content-sha256;x-date",
                     crypto.sha256hex options.body])]))] := by
  rfl

/-! ## Helper lemmas: step planning -/

theorem stepBlock_length (opts : DeployOptions) (n : String) :
    (stepBlock opts n).length = 6 := by
  simp [stepBlock]

theorem flatMap_stepBlock_length (opts : DeployOptions) :
    ∀ l : List String, (l.flatMap (stepBlock opts)).length = 6 * l.length := by
  intro l
  induction l with
  | nil => simp
  | cons n rest ih =>
    rw [List.flatMap_cons, List.length_append, ih, stepBlock_length]
    simp [List.length_cons]
    ring

theorem flatMap_stepBlock_getD (opts : DeployOptions) :
    ∀ (l : List String) (i : Nat), i < l.length → ∀ j, j < 6 →
      (l.flatMap (stepBlock opts)).getD (6 * i + j) dummyStep =
        (stepBlock opts (l.getD i "")).getD j dummyStep := by
  intro l
  induction l with
  | nil => intro i hi; simp at hi
  | cons n rest ih =>
    intro i hi j hj
    cases i with
    | zero =>
      rw [List.flatMap_cons, Nat.mul_zero, Nat.zero_add,
        List.getD_append _ _ _ j (by rw [stepBlock_length]; omega)]
      simp [List.getD]
    | succ i' =>
      have harith : 6 * (i' + 1) + j = (stepBlock opts n).length + (6 * i' + j) := by
        rw [stepBlock_length]; ring
      rw [List.flatMap_cons, harith,
        List.getD_append_right _ _ _ _ (by omega),
        Nat.add_sub_cancel_left, List.getD_cons_succ]
      exact ih i' (by simpa using Nat.lt_of_succ_lt_succ hi) j hj

/-- C4: Planning creates exactly six steps per selected service, in the fixed
order build, push, update, sync, release, wait-release, with service blocks in
selection order; the build step starts skipped iff skip-build, the push step
starts skipped iff skip-push, the other four start pending; an empty or absent
selection selects every configured service. -/
theorem spec_c4 (cfg : ProjectConfig) (opts : DeployOptions) :
    ((opts.services = none ∨ opts.services = some []) →
      servicesToDeploy cfg opts = cfg.services.map Prod.fst)
    ∧ (planSteps cfg opts).length = 6 * (servicesToDeploy cfg opts).length
    ∧ (∀ i, i < (servicesToDeploy cfg opts).length →
        ((planSteps cfg opts).getD (6 * i) dummyStep =
          { id := (servicesToDeploy cfg opts).getD i "" ++ "-build",
            name := "Build " ++ (servicesToDeploy cfg opts).getD i "",
            status := if opts.skipBuild then .skipped else .pending })
        ∧ ((planSteps cfg opts).getD (6 * i + 1) dummyStep =
          { id := (servicesToDeploy cfg opts).getD i "" ++ "-push",
            name := "Push " ++ (servicesToDeploy cfg opts).getD i "",
            status := if opts.skipPush then .skipped else .pending })
        ∧ ((planSteps cfg opts).getD (6 * i + 2) dummyStep =
          { id := (servicesToDeploy cfg opts).getD i "" ++ "-update",
            name := "Update " ++ (servicesToDeploy cfg opts).getD i "",
            status := .pending })
        ∧ ((planSteps cfg opts).getD (6 * i + 3) dummyStep =
          { id := (servicesToDeploy cfg opts).getD i "" ++ "-sync",
            name := "Sync " ++ (servicesToDeploy cfg opts).getD i "",
            status := .pending })
        ∧ ((planSteps cfg opts).getD (6 * i + 4) dummyStep =
          { id := (servicesToDeploy cfg opts).getD i "" ++ "-release",
            name := "Release " ++ (servicesToDeploy cfg opts).getD i "",
            status := .pending })
        ∧ ((planSteps cfg opts).getD (6 * i + 5) dummyStep =
          { id := (servicesToDeploy cfg opts).getD i "" ++ "-wait-release",
            name := "Wait Release " ++ (servicesToDeploy cfg opts).getD i "",
            status := .pending })
        ∧ (((planSteps cfg opts).getD (6 * i) dummyStep).status = .skipped ↔
            opts.skipBuild = true)
        ∧ (((planSteps cfg opts).getD (6 * i + 1) dummyStep).status = .skipped ↔
            opts.skipPush = true)) := by
  refine ⟨?_, flatMap_stepBlock_length opts _, ?_⟩
  · rintro (h | h) <;> simp [servicesToDeploy, h]
  · intro i hi
    have h0 := flatMap_stepBlock_getD opts _ i hi 0 (by omega)
    have h1 := flatMap_stepBlock_getD opts _ i hi 1 (by omega)
    have h2 := flatMap_stepBlock_getD opts _ i hi 2 (by omega)
    have h3 := flatMap_stepBlock_getD opts _ i hi 3 (by omega)
    have h4 := flatMap_stepBlock_getD opts _ i hi 4 (by omega)
    have h5 := flatMap_stepBlock_getD opts _ i hi 5 (by omega)
    rw [Nat.add_zero] at h0
    refine ⟨?_, ?_, ?_, ?_, ?_, ?_, ?_, ?_⟩
    · rw [planSteps, h0]; simp [stepBlock, List.getD]
    · rw [planSteps, h1]; simp [stepBlock, List.getD]
    · rw [planSteps, h2]; simp [stepBlock, List.getD]
    · rw [planSteps, h3]; simp [stepBlock, List.getD]
    · rw [planSteps, h4]; simp [stepBlock, List.getD]
    · rw [planSteps, h5]; simp [stepBlock, List.getD]
    · rw [planSteps, h0]
      cases hb : opts.skipBuild <;> simp [stepBlock, List.getD, hb]
    · rw [planSteps, h1]
      cases hb : opts.skipPush <;> simp [stepBlock, List.getD, hb]

/-- Witness for C4 at the two-service scenario. -/
theorem spec_c4_witness :
    (0 : Nat) < (servicesToDeploy cfgTwo optsTwo).length ∧
    servicesToDeploy cfgTwo optsTwo = ["api", "worker"] ∧
    (planSteps cfgTwo optsTwo).length = 6 * (servicesToDeploy cfgTwo optsTwo).length ∧
    (planSteps cfgTwo optsTwo).getD 0 dummyStep =
      { id := "api" ++ "-build", name := "Build " ++ "api",
        status := if optsTwo.skipBuild then .skipped else .pending } := by
  have h := spec_c4 cfgTwo optsTwo
  have hi : (0 : Nat) < (servicesToDeploy cfgTwo optsTwo).length := by decide
  have hb := (h.2.2 0 hi).1
  refine ⟨hi, by decide, h.2.1, ?_⟩
  simpa using hb

/-! ## Helper lemmas: step registry updates -/

theorem strAppend_cancel_left (n a b : String) : n ++ a = n ++ b ↔ a = b := by
  constructor
  · intro h
    have h2 := congrArg String.data h
    rw [String.data_append, String.data_append] at h2
    exact String.ext (List.append_cancel_left h2)
  · intro h; rw [h]

theorem applyUpdate_id (s : Step) (u : StepUpdate) :
    (applyUpdate s u).id = s.id := rfl

theorem violatesMonotone_refl (st : StepStatus) :
    violatesMonotone st st = false := by cases st <;> rfl

theorem updateStepT_ids (steps : List Step) (id : String) (u : StepUpdate) :
    (updateStepT steps id u).1.map Step.id = steps.map Step.id := by
  unfold updateStepT
  rw [List.map_map]
  apply List.map_congr_left
  intro s _
  by_cases h : s.id == id <;> simp [h, Function.comp, applyUpdate]

theorem statusOf_updateStepT_ne (steps : List Step) (id id' : String)
    (u : StepUpdate) (h : id' ≠ id) :
    statusOf (updateStepT steps id u).1 id' = statusOf steps id' := by
  induction steps with
  | nil => rfl
  | cons s rest ih =>
    show statusOf ((if s.id == id then applyUpdate s u else s) ::
      (updateStepT rest id u).1) id' = statusOf (s :: rest) id'
    by_cases hc' : s.id = id'
    · have hsid : ¬(s.id = id) := fun he => h (by rw [← hc', he])
      rw [if_neg (by simp [hsid])]
      simp [statusOf, List.find?, hc']
    · have hp : ((if s.id == id then applyUpdate s u else s).id == id') = false := by
        split <;> simp [applyUpdate, hc']
      have hq : (s.id == id') = false := by simp [hc']
      simp only [statusOf, List.find?, hp, hq]
      exact ih

theorem statusOf_updateStepT_self (steps : List Step) (id : String)
    (u : StepUpdate) :
    statusOf (updateStepT steps id u).1 id =
      (statusOf steps id).map (fun st => u.status.getD st) := by
  induction steps with
  | nil => rfl
  | cons s rest ih =>
    show statusOf ((if s.id == id then applyUpdate s u else s) ::
      (updateStepT rest id u).1) id = _
    by_cases hc : s.id = id
    · rw [if_pos (by simp [hc])]
      simp [statusOf, List.find?, applyUpdate, hc]
    · rw [if_neg (by simp [hc])]
      simp only [statusOf, List.find?] at *
      have hp : (s.id == id) = false := by simp [hc]
      simp only [hp]
      exact ih

theorem statusOf_updateStepT_nostatus (steps : List Step) (id : String)
    (u : StepUpdate) (hu : u.status = none) (id' : String) :
    statusOf (updateStepT steps id u).1 id' = statusOf steps id' := by
  by_cases h : id' = id
  · subst h
    rw [statusOf_updateStepT_self]
    cases hst : statusOf steps id' <;> simp [hu]
  · exact statusOf_updateStepT_ne _ _ _ _ h

theorem updateStepT_trace_mem (steps : List Step) (id : String) (u : StepUpdate)
    (t : Tr) (ht : t ∈ (updateStepT steps id u).2) :
    ∃ s, s ∈ steps ∧ s.id = id ∧
      t = (id, s.status, u.status.getD s.status) := by
  unfold updateStepT at ht
  rw [List.mem_filterMap] at ht
  obtain ⟨s, hs, he⟩ := ht
  by_cases hc : s.id = id
  · rw [if_pos (by simp [hc])] at he
    exact ⟨s, hs, hc, by injection he with h; rw [← h]; rfl⟩
  · rw [if_neg (by simp [hc])] at he
    cases he

theorem statusOf_of_mem_nodup {steps : List Step}
    (hnd : (steps.map Step.id).Nodup) {s : Step} (hs : s ∈ steps) :
    statusOf steps s.id = some s.status := by
  induction steps with
  | nil => cases hs
  | cons a rest ih =>
    rw [List.map_cons, List.nodup_cons] at hnd
    rcases List.mem_cons.mp hs with rfl | hmem
    · simp [statusOf, List.find?]
    · have hne : ¬(a.id = s.id) := fun h =>
        hnd.1 (h ▸ List.mem_map_of_mem Step.id hmem)
      have hp : (a.id == s.id) = false := by simp [hne]
      simp only [statusOf, List.find?, hp]
      exact ih hnd.2 hmem

theorem updateStepT_trace_mono (steps : List Step) (id : String) (u : StepUpdate)
    (st0 stNew : StepStatus) (hnd : (steps.map Step.id).Nodup)
    (hst : statusOf steps id = some st0) (hu : u.status = some stNew)
    (hok : violatesMonotone st0 stNew = false) :
    ∀ t ∈ (updateStepT steps id u).2,
      violatesMonotone t.2.1 t.2.2 = false := by
  intro t ht
  obtain ⟨s, hs, hid, rfl⟩ := updateStepT_trace_mem _ _ _ _ ht
  have hmem := statusOf_of_mem_nodup hnd hs
  rw [hid, hst] at hmem
  have hss : s.status = st0 := by injection hmem with h; exact h.symm
  simpa [hss, hu] using hok

theorem updateStepT_trace_msg (steps : List Step) (id : String) (u : StepUpdate)
    (hu : u.status = none) :
    ∀ t ∈ (updateStepT steps id u).2,
      violatesMonotone t.2.1 t.2.2 = false := by
  intro t ht
  obtain ⟨s, hs, hid, rfl⟩ := updateStepT_trace_mem _ _ _ _ ht
  simp [hu, violatesMonotone_refl]

/-! ## Helper lemmas: phases of the deploy loop -/

theorem andThen_phaseFacts {steps : List Step} {t1 t2 : List String}
    {r : List Step × List Tr × Option String}
    {k : List Step → List Step × List Tr × Option String}
    (h1 : PhaseFacts steps t1 r) (h2 : PhaseFacts r.1 t2 (k r.1)) :
    PhaseFacts steps (t1 ++ t2) (andThen r k) := by
  obtain ⟨s, t, e⟩ := r
  cases e with
  | some err =>
    refine ⟨h1.1, h1.2.1, fun id' hid => h1.2.2 id' (fun hm => hid ?_)⟩
    exact List.mem_append.mpr (.inl hm)
  | none =>
    show PhaseFacts steps (t1 ++ t2)
      ((k s).1, t ++ (k s).2.1, (k s).2.2)
    refine ⟨?_, ?_, ?_⟩
    · intro tr htr
      rcases List.mem_append.mp htr with h | h
      · exact h1.1 tr h
      · exact h2.1 tr h
    · rw [h2.2.1]; exact h1.2.1
    · intro id' hid
      rw [h2.2.2 id' (fun hm => hid (List.mem_append.mpr (.inr hm)))]
      exact h1.2.2 id' (fun hm => hid (List.mem_append.mpr (.inl hm)))

theorem execStep_facts (steps : List Step) (id : String)
    (outcome : Except String Unit) (done : StepUpdate)
    (hnd : (steps.map Step.id).Nodup)
    (hst : statusOf steps id = some .pending)
    (hdone : done.status = some .success) :
    PhaseFacts steps [id] (execStep steps id outcome done) := by
  have hmono1 := updateStepT_trace_mono steps id ⟨some .running, none, none⟩
    .pending .running hnd hst rfl rfl
  have hids1 := updateStepT_ids steps id ⟨some .running, none, none⟩
  have hnd1 : ((updateStepT steps id ⟨some .running, none, none⟩).1.map
      Step.id).Nodup := by rw [hids1]; exact hnd
  have hst1 : statusOf (updateStepT steps id ⟨some .running, none, none⟩).1 id =
      some .running := by
    rw [statusOf_updateStepT_self, hst]; rfl
  cases outcome with
  | error e =>
    have heq : execStep steps id (.error e) done =
        ((updateStepT steps id ⟨some .running, none, none⟩).1,
         (updateStepT steps id ⟨some .running, none, none⟩).2, some e) := rfl
    rw [heq]
    refine ⟨hmono1, hids1, fun id' hid => ?_⟩
    exact statusOf_updateStepT_ne _ _ _ _ (by simpa using hid)
  | ok u =>
    have heq : execStep steps id (.ok u) done =
        ((updateStepT (updateStepT steps id ⟨some .running, none, none⟩).1
            id done).1,
         (updateStepT steps id ⟨some .running, none, none⟩).2 ++
           (updateStepT (updateStepT steps id ⟨some .running, none, none⟩).1
             id done).2, none) := rfl
    rw [heq]
    have hmono2 := updateStepT_trace_mono
      (updateStepT steps id ⟨some .running, none, none⟩).1 id done
      .running .success hnd1 hst1 hdone rfl
    refine ⟨?_, ?_, ?_⟩
    · intro tr htr
      rcases List.mem_append.mp htr with h | h
      · exact hmono1 tr h
      · exact hmono2 tr h
    · rw [updateStepT_ids, hids1]
    · intro id' hid
      have hne : id' ≠ id := by simpa using hid
      rw [statusOf_updateStepT_ne _ _ _ _ hne,
        statusOf_updateStepT_ne _ _ _ _ hne]

theorem progressFold_facts (id : String) :
    ∀ (obs : List String) (steps : List Step),
      (∀ t ∈ (progressFold steps id obs).2,
        violatesMonotone t.2.1 t.2.2 = false)
      ∧ (progressFold steps id obs).1.map Step.id = steps.map Step.id
      ∧ (∀ id', statusOf (progressFold steps id obs).1 id' =
          statusOf steps id') := by
  intro obs
  induction obs with
  | nil =>
    intro steps
    refine ⟨fun t ht => ?_, rfl, fun id' => rfl⟩
    exact absurd ht (by simp [progressFold])
  | cons st rest ih =>
    intro steps
    have heq : progressFold steps id (st :: rest) =
        ((progressFold (updateStepT steps id ⟨none, some st, none⟩).1
            id rest).1,
         (updateStepT steps id ⟨none, some st, none⟩).2 ++
           (progressFold (updateStepT steps id ⟨none, some st, none⟩).1
             id rest).2) := rfl
    rw [heq]
    have hmsg := updateStepT_trace_msg steps id ⟨none, some st, none⟩ rfl
    obtain ⟨ihm, ihi, ihs⟩ := ih (updateStepT steps id ⟨none, some st, none⟩).1
    refine ⟨?_, ?_, ?_⟩
    · intro tr htr
      rcases List.mem_append.mp htr with h | h
      · exact hmsg tr h
      · exact ihm tr h
    · rw [ihi, updateStepT_ids]
    · intro id'
      rw [ihs id', statusOf_updateStepT_nostatus _ _ _ rfl]

theorem execPoll_facts (steps : List Step) (id : String) (observed : List String)
    (outcome : Except String Unit) (done : StepUpdate)
    (hnd : (steps.map Step.id).Nodup)
    (hst : statusOf steps id = some .pending)
    (hdone : done.status = some .success) :
    PhaseFacts steps [id] (execPoll steps id observed outcome done) := by
  have hmono1 := updateStepT_trace_mono steps id ⟨some .running, none, none⟩
    .pending .running hnd hst rfl rfl
  have hids1 := updateStepT_ids steps id ⟨some .running, none, none⟩
  obtain ⟨hpm, hpi, hps⟩ :=
    progressFold_facts id observed
      (updateStepT steps id ⟨some .running, none, none⟩).1
  have hst1 : statusOf (updateStepT steps id ⟨some .running, none, none⟩).1 id =
      some .running := by
    rw [statusOf_updateStepT_self, hst]; rfl
  have hst2 : statusOf (progressFold
      (updateStepT steps id ⟨some .running, none, none⟩).1 id observed).1 id =
      some .running := by rw [hps id]; exact hst1
  have hnd2 : ((progressFold
      (updateStepT steps id ⟨some .running, none, none⟩).1 id observed).1.map
      Step.id).Nodup := by rw [hpi, hids1]; exact hnd
  cases outcome with
  | error e =>
    have heq : execPoll steps id observed (.error e) done =
        ((progressFold (updateStepT steps id ⟨some .running, none, none⟩).1
            id observed).1,
         (updateStepT steps id ⟨some .running, none, none⟩).2 ++
           (progressFold (updateStepT steps id ⟨some .running, none, none⟩).1
             id observed).2, some e) := rfl
    rw [heq]
    refine ⟨?_, ?_, ?_⟩
    · intro tr htr
      rcases List.mem_append.mp htr with h | h
      · exact hmono1 tr h
      · exact hpm tr h
    · rw [hpi, hids1]
    · intro id' hid
      have hne : id' ≠ id := by simpa using hid
      rw [hps id', statusOf_updateStepT_ne _ _ _ _ hne]
  | ok u =>
    have heq : execPoll steps id observed (.ok u) done =
        ((updateStepT (progressFold
            (updateStepT steps id ⟨some .running, none, none⟩).1
            id observed).1 id done).1,
         (updateStepT steps id ⟨some .running, none, none⟩).2 ++
           (progressFold (updateStepT steps id ⟨some .running, none, none⟩).1
             id observed).2 ++
           (updateStepT (progressFold
             (updateStepT steps id ⟨some .running, none, none⟩).1
             id observed).1 id done).2, none) := rfl
    rw [heq]
    have hmono3 := updateStepT_trace_mono
      (progressFold (updateStepT steps id ⟨some .running, none, none⟩).1 id
        observed).1 id done .running .success hnd2 hst2 hdone rfl
    refine ⟨?_, ?_, ?_⟩
    · intro tr htr
      rcases List.mem_append.mp htr with h | h
      · rcases List.mem_append.mp h with h' | h'
        · exact hmono1 tr h'
        · exact hpm tr h'
      · exact hmono3 tr h
    · rw [updateStepT_ids, hpi, hids1]
    · intro id' hid
      have hne : id' ≠ id := by simpa using hid
      rw [statusOf_updateStepT_ne _ _ _ _ hne, hps id',
        statusOf_updateStepT_ne _ _ _ _ hne]

theorem buildPhase_facts (env : Env) (opts : DeployOptions)
    (n version imageTag : String) (steps : List Step)
    (hnd : (steps.map Step.id).Nodup)
    (hb : statusOf steps (n ++ "-build") =
      some (if opts.skipBuild then .skipped else .pending)) :
    PhaseFacts steps [n ++ "-build"]
      (buildPhase env opts n version imageTag steps) := by
  by_cases hsb : opts.skipBuild = true
  · have heq : buildPhase env opts n version imageTag steps =
        (steps, [], none) := by rw [buildPhase, if_pos hsb]
    rw [heq]
    exact ⟨fun t ht => absurd ht (by simp), rfl, fun id' _ => rfl⟩
  · have heq : buildPhase env opts n version imageTag steps =
        execStep steps (n ++ "-build") (env.buildResult n version)
          ⟨some .success, some imageTag, some 0⟩ := by
      rw [buildPhase, if_neg hsb]
    rw [heq]
    rw [if_neg hsb] at hb
    exact execStep_facts _ _ _ _ hnd hb rfl

theorem pushPhase_facts (env : Env) (opts : DeployOptions)
    (n imageTag : String) (steps : List Step)
    (hnd : (steps.map Step.id).Nodup)
    (hp : statusOf steps (n ++ "-push") =
      some (if opts.skipPush then .skipped else .pending)) :
    PhaseFacts steps [n ++ "-push"]
      (pushPhase env opts n imageTag steps) := by
  by_cases hsp : opts.skipPush = true
  · have heq : pushPhase env opts n imageTag steps = (steps, [], none) := by
      rw [pushPhase, if_pos hsp]
    rw [heq]
    exact ⟨fun t ht => absurd ht (by simp), rfl, fun id' _ => rfl⟩
  · have heq : pushPhase env opts n imageTag steps =
        execStep steps (n ++ "-push") (env.pushResult imageTag)
          ⟨some .success, none, some 0⟩ := by
      rw [pushPhase, if_neg hsp]
    rw [heq]
    rw [if_neg hsp] at hp
    exact execStep_facts _ _ _ _ hnd hp rfl

theorem faasPhase_facts (env : Env) (faas : Bool) (n : String)
    (svc : ServiceConfig) (imageTag : String) (steps : List Step)
    (hnd : (steps.map Step.id).Nodup)
    (hup : statusOf steps (n ++ "-update") = some .pending)
    (hsy : statusOf steps (n ++ "-sync") = some .pending)
    (hre : statusOf steps (n ++ "-release") = some .pending)
    (hwr : statusOf steps (n ++ "-wait-release") = some .pending) :
    PhaseFacts steps
      [n ++ "-update", n ++ "-sync", n ++ "-release", n ++ "-wait-release"]
      (faasPhase env faas n svc imageTag steps) := by
  by_cases hg : (faas && svc.functionId != "") = true
  · rw [faasPhase, if_pos hg]
    have h1 := execStep_facts steps (n ++ "-update")
      (env.updateResult svc.functionId imageTag)
      ⟨some .success, none, some 0⟩ hnd hup rfl
    generalize hr1 : execStep steps (n ++ "-update")
      (env.updateResult svc.functionId imageTag)
      ⟨some .success, none, some 0⟩ = r1 at h1 ⊢
    obtain ⟨hm1, hi1, hf1⟩ := h1
    refine andThen_phaseFacts ⟨hm1, hi1, hf1⟩ ?_
    beta_reduce
    have h2 := execPoll_facts r1.1 (n ++ "-sync")
      (env.syncRun svc.functionId imageTag).1
      (env.syncRun svc.functionId imageTag).2
      ⟨some .success, none, some 0⟩
      (by rw [hi1]; exact hnd)
      ((hf1 (n ++ "-sync") (by simp [strAppend_cancel_left])).trans hsy) rfl
    generalize hr2 : execPoll r1.1 (n ++ "-sync")
      (env.syncRun svc.functionId imageTag).1
      (env.syncRun svc.functionId imageTag).2
      ⟨some .success, none, some 0⟩ = r2 at h2 ⊢
    obtain ⟨hm2, hi2, hf2⟩ := h2
    refine andThen_phaseFacts ⟨hm2, hi2, hf2⟩ ?_
    beta_reduce
    have h3 := execStep_facts r2.1 (n ++ "-release")
      (env.releaseResult svc.functionId) ⟨some .success, none, some 0⟩
      (by rw [hi2, hi1]; exact hnd)
      ((hf2 (n ++ "-release") (by simp [strAppend_cancel_left])).trans
        ((hf1 (n ++ "-release") (by simp [strAppend_cancel_left])).trans hre))
      rfl
    generalize hr3 : execStep r2.1 (n ++ "-release")
      (env.releaseResult svc.functionId)
      ⟨some .success, none, some 0⟩ = r3 at h3 ⊢
    obtain ⟨hm3, hi3, hf3⟩ := h3
    refine andThen_phaseFacts ⟨hm3, hi3, hf3⟩ ?_
    beta_reduce
    exact execPoll_facts r3.1 (n ++ "-wait-release")
      (env.waitReleaseRun svc.functionId).1
      (env.waitReleaseRun svc.functionId).2
      ⟨some .success, none, some 0⟩
      (by rw [hi3, hi2, hi1]; exact hnd)
      ((hf3 (n ++ "-wait-release") (by simp [strAppend_cancel_left])).trans
        ((hf2 (n ++ "-wait-release") (by simp [strAppend_cancel_left])).trans
          ((hf1 (n ++ "-wait-release")
            (by simp [strAppend_cancel_left])).trans hwr))) rfl
  · rw [faasPhase, if_neg hg]
    generalize hres : (if !faas then "No credentials" else "No function ID") = R
    show PhaseFacts steps
      [n ++ "-update", n ++ "-sync", n ++ "-release", n ++ "-wait-release"]
      ((updateStepT (updateStepT (updateStepT (updateStepT steps
          (n ++ "-update") ⟨some .skipped, some R, none⟩).1
          (n ++ "-sync") ⟨some .skipped, some R, none⟩).1
          (n ++ "-release") ⟨some .skipped, some R, none⟩).1
          (n ++ "-wait-release") ⟨some .skipped, some R, none⟩).1,
       (updateStepT steps (n ++ "-update") ⟨some .skipped, some R, none⟩).2 ++
       (updateStepT (updateStepT steps
          (n ++ "-update") ⟨some .skipped, some R, none⟩).1
          (n ++ "-sync") ⟨some .skipped, some R, none⟩).2 ++
       (updateStepT (updateStepT (updateStepT steps
          (n ++ "-update") ⟨some .skipped, some R, none⟩).1
          (n ++ "-sync") ⟨some .skipped, some R, none⟩).1
          (n ++ "-release") ⟨some .skipped, some R, none⟩).2 ++
       (updateStepT (updateStepT (updateStepT (updateStepT steps
          (n ++ "-update") ⟨some .skipped, some R, none⟩).1
          (n ++ "-sync") ⟨some .skipped, some R, none⟩).1
          (n ++ "-release") ⟨some .skipped, some R, none⟩).1
          (n ++ "-wait-release") ⟨some .skipped, some R, none⟩).2,
       none)
    have hm1 := updateStepT_trace_mono steps (n ++ "-update")
      ⟨some .skipped, some R, none⟩ .pending .skipped hnd hup rfl rfl
    have hi1 := updateStepT_ids steps (n ++ "-update")
      ⟨some .skipped, some R, none⟩
    have hnd1 : ((updateStepT steps (n ++ "-update")
        ⟨some .skipped, some R, none⟩).1.map Step.id).Nodup := by
      rw [hi1]; exact hnd
    have hsy1 : statusOf (updateStepT steps (n ++ "-update")
        ⟨some .skipped, some R, none⟩).1 (n ++ "-sync") = some .pending := by
      rw [statusOf_updateStepT_ne _ _ _ _ (by simp [strAppend_cancel_left])]
      exact hsy
    have hre1 : statusOf (updateStepT steps (n ++ "-update")
        ⟨some .skipped, some R, none⟩).1 (n ++ "-release") = some .pending := by
      rw [statusOf_updateStepT_ne _ _ _ _ (by simp [strAppend_cancel_left])]
      exact hre
    have hwr1 : statusOf (updateStepT steps (n ++ "-update")
        ⟨some .skipped, some R, none⟩).1 (n ++ "-wait-release") =
        some .pending := by
      rw [statusOf_updateStepT_ne _ _ _ _ (by simp [strAppend_cancel_left])]
      exact hwr
    have hm2 := updateStepT_trace_mono _ (n ++ "-sync")
      ⟨some .skipped, some R, none⟩ .pending .skipped hnd1 hsy1 rfl rfl
    have hi2 := updateStepT_ids (updateStepT steps (n ++ "-update")
        ⟨some .skipped, some R, none⟩).1 (n ++ "-sync")
      ⟨some .skipped, some R, none⟩
    have hnd2 : ((updateStepT (updateStepT steps (n ++ "-update")
        ⟨some .skipped, some R, none⟩).1 (n ++ "-sync")
        ⟨some .skipped, some R, none⟩).1.map Step.id).Nodup := by
      rw [hi2, hi1]; exact hnd
    have hre2 : statusOf (updateStepT (updateStepT steps (n ++ "-update")
        ⟨some .skipped, some R, none⟩).1 (n ++ "-sync")
        ⟨some .skipped, some R, none⟩).1 (n ++ "-release") =
        some .pending := by
      rw [statusOf_updateStepT_ne _ _ _ _ (by simp [strAppend_cancel_left])]
      exact hre1
    have hwr2 : statusOf (updateStepT (updateStepT steps (n ++ "-update")
        ⟨some .skipped, some R, none⟩).1 (n ++ "-sync")
        ⟨some .skipped, some R, none⟩).1 (n ++ "-wait-release") =
        some .pending := by
      rw [statusOf_updateStepT_ne _ _ _ _ (by simp [strAppend_cancel_left])]
      exact hwr1
    have hm3 := updateStepT_trace_mono _ (n ++ "-release")
      ⟨some .skipped, some R, none⟩ .pending .skipped hnd2 hre2 rfl rfl
    have hi3 := updateStepT_ids (updateStepT (updateStepT steps
        (n ++ "-update") ⟨some .skipped, some R, none⟩).1 (n ++ "-sync")
        ⟨some .skipped, some R, none⟩).1 (n ++ "-release")
      ⟨some .skipped, some R, none⟩
    have hnd3 : ((updateStepT (updateStepT (updateStepT steps
        (n ++ "-update") ⟨some .skipped, some R, none⟩).1 (n ++ "-sync")
        ⟨some .skipped, some R, none⟩).1 (n ++ "-release")
        ⟨some .skipped, some R, none⟩).1.map Step.id).Nodup := by
      rw [hi3, hi2, hi1]; exact hnd
    have hwr3 : statusOf (updateStepT (updateStepT (updateStepT steps
        (n ++ "-update") ⟨some .skipped, some R, none⟩).1 (n ++ "-sync")
        ⟨some .skipped, some R, none⟩).1 (n ++ "-release")
        ⟨some .skipped, some R, none⟩).1 (n ++ "-wait-release") =
        some .pending := by
      rw [statusOf_updateStepT_ne _ _ _ _ (by simp [strAppend_cancel_left])]
      exact hwr2
    have hm4 := updateStepT_trace_mono _ (n ++ "-wait-release")
      ⟨some .skipped, some R, none⟩ .pending .skipped hnd3 hwr3 rfl rfl
    have hi4 := updateStepT_ids (updateStepT (updateStepT (updateStepT steps
        (n ++ "-update") ⟨some .skipped, some R, none⟩).1 (n ++ "-sync")
        ⟨some .skipped, some R, none⟩).1 (n ++ "-release")
        ⟨some .skipped, some R, none⟩).1 (n ++ "-wait-release")
      ⟨some .skipped, some R, none⟩
    refine ⟨?_, ?_, ?_⟩
    · intro tr htr
      rcases List.mem_append.mp htr with h | h
      · rcases List.mem_append.mp h with h' | h'
        · rcases List.mem_append.mp h' with h'' | h''
          · exact hm1 tr h''
          · exact hm2 tr h''
        · exact hm3 tr h'
      · exact hm4 tr h
    · rw [hi4, hi3, hi2, hi1]
    · intro id' hid
      have hne1 : id' ≠ n ++ "-update" := fun h => hid (h ▸ by simp)
      have hne2 : id' ≠ n ++ "-sync" := fun h => hid (h ▸ by simp)
      have hne3 : id' ≠ n ++ "-release" := fun h => hid (h ▸ by simp)
      have hne4 : id' ≠ n ++ "-wait-release" := fun h => hid (h ▸ by simp)
      rw [statusOf_updateStepT_ne _ _ _ _ hne4,
        statusOf_updateStepT_ne _ _ _ _ hne3,
        statusOf_updateStepT_ne _ _ _ _ hne2,
        statusOf_updateStepT_ne _ _ _ _ hne1]

theorem deployService_facts (env : Env) (cfg : ProjectConfig)
    (opts : DeployOptions) (faas : Bool) (n : String) (steps : List Step)
    (hnd : (steps.map Step.id).Nodup) (hok : okAt steps opts n) :
    PhaseFacts steps (blockIds n) (deployService env cfg opts faas n steps) := by
  obtain ⟨hb, hp, hu, hs, hr, hw⟩ := hok
  cases hlook : cfg.services.lookup n with
  | none =>
    have heq : deployService env cfg opts faas n steps = (steps, [], none) := by
      rw [deployService, hlook]
    rw [heq]
    exact ⟨fun t ht => absurd ht (by simp), rfl, fun id' _ => rfl⟩
  | some svc =>
    have heq : deployService env cfg opts faas n steps =
        andThen (buildPhase env opts n
            (jsOr (opts.versions.lookup n) "latest")
            (getImageTag cfg.registry svc.imageName
              (jsOr (opts.versions.lookup n) "latest")) steps) (fun s =>
          andThen (pushPhase env opts n
              (getImageTag cfg.registry svc.imageName
                (jsOr (opts.versions.lookup n) "latest")) s) (fun s =>
            faasPhase env faas n svc
              (getImageTag cfg.registry svc.imageName
                (jsOr (opts.versions.lookup n) "latest")) s)) := by
      rw [deployService, hlook]
    rw [heq]
    show PhaseFacts steps
      ([n ++ "-build"] ++ [n ++ "-push", n ++ "-update", n ++ "-sync",
        n ++ "-release", n ++ "-wait-release"]) _
    have h1 := buildPhase_facts env opts n
      (jsOr (opts.versions.lookup n) "latest")
      (getImageTag cfg.registry svc.imageName
        (jsOr (opts.versions.lookup n) "latest")) steps hnd hb
    generalize hr1 : buildPhase env opts n
      (jsOr (opts.versions.lookup n) "latest")
      (getImageTag cfg.registry svc.imageName
        (jsOr (opts.versions.lookup n) "latest")) steps = r1 at h1 ⊢
    obtain ⟨hm1, hi1, hf1⟩ := h1
    refine andThen_phaseFacts ⟨hm1, hi1, hf1⟩ ?_
    beta_reduce
    have h2 := pushPhase_facts env opts n
      (getImageTag cfg.registry svc.imageName
        (jsOr (opts.versions.lookup n) "latest")) r1.1
      (by rw [hi1]; exact hnd)
      ((hf1 (n ++ "-push") (by simp [strAppend_cancel_left])).trans hp)
    generalize hr2 : pushPhase env opts n
      (getImageTag cfg.registry svc.imageName
        (jsOr (opts.versions.lookup n) "latest")) r1.1 = r2 at h2 ⊢
    obtain ⟨hm2, hi2, hf2⟩ := h2
    refine andThen_phaseFacts ⟨hm2, hi2, hf2⟩ ?_
    beta_reduce
    exact faasPhase_facts env faas n svc
      (getImageTag cfg.registry svc.imageName
        (jsOr (opts.versions.lookup n) "latest")) r2.1
      (by rw [hi2, hi1]; exact hnd)
      ((hf2 (n ++ "-update") (by simp [strAppend_cancel_left])).trans
        ((hf1 (n ++ "-update") (by simp [strAppend_cancel_left])).trans hu))
      ((hf2 (n ++ "-sync") (by simp [strAppend_cancel_left])).trans
        ((hf1 (n ++ "-sync") (by simp [strAppend_cancel_left])).trans hs))
      ((hf2 (n ++ "-release") (by simp [strAppend_cancel_left])).trans
        ((hf1 (n ++ "-release") (by simp [strAppend_cancel_left])).trans hr))
      ((hf2 (n ++ "-wait-release") (by simp [strAppend_cancel_left])).trans
        ((hf1 (n ++ "-wait-release")
          (by simp [strAppend_cancel_left])).trans hw))

theorem stepBlock_ids (opts : DeployOptions) (n : String) :
    (stepBlock opts n).map Step.id = blockIds n := by
  simp [stepBlock, blockIds]

theorem planSteps_ids (cfg : ProjectConfig) (opts : DeployOptions) :
    (planSteps cfg opts).map Step.id =
      (servicesToDeploy cfg opts).flatMap blockIds := by
  rw [planSteps]
  induction servicesToDeploy cfg opts with
  | nil => rfl
  | cons n rest ih =>
    rw [List.flatMap_cons, List.flatMap_cons, List.map_append, ih,
      stepBlock_ids]

theorem statusOf_append_of_ne (l1 l2 : List Step) (id : String)
    (h : ∀ s ∈ l1, s.id ≠ id) :
    statusOf (l1 ++ l2) id = statusOf l2 id := by
  induction l1 with
  | nil => rfl
  | cons s rest ih =>
    have hp : (s.id == id) = false := by simp [h s (by simp)]
    show statusOf (s :: (rest ++ l2)) id = _
    simp only [statusOf, List.find?, hp]
    exact ih (fun s' hs' => h s' (by simp [hs']))

theorem strAppend_beq (n a b : String) : (n ++ a == n ++ b) = (a == b) := by
  by_cases h : a = b
  · rw [h]; simp
  · rw [beq_eq_false_iff_ne.mpr h, beq_eq_false_iff_ne.mpr
      (fun he => h ((strAppend_cancel_left n a b).mp he))]

theorem okAt_stepBlock_append (opts : DeployOptions) (n : String)
    (X : List Step) : okAt (stepBlock opts n ++ X) opts n := by
  refine ⟨?_, ?_, ?_, ?_, ?_, ?_⟩ <;>
    simp [stepBlock, statusOf, List.find?, strAppend_beq]

theorem okAt_flatMap (opts : DeployOptions) :
    ∀ names : List String, (names.flatMap blockIds).Nodup →
      ∀ m ∈ names, okAt (names.flatMap (stepBlock opts)) opts m := by
  intro names
  induction names with
  | nil => intro _ m hm; cases hm
  | cons n rest ih =>
    intro hnd m hm
    rw [List.flatMap_cons] at hnd
    obtain ⟨hn1, hn2, hdisj⟩ := List.nodup_append.mp hnd
    rcases List.mem_cons.mp hm with rfl | hmem
    · rw [List.flatMap_cons]
      exact okAt_stepBlock_append opts m _
    · have hnotin : ∀ sfx, sfx ∈ blockIds m → sfx ∉ blockIds n := by
        intro sfx hsfx hin
        exact hdisj hin (List.mem_flatMap.mpr ⟨m, hmem, hsfx⟩)
      have hmem_blk : ∀ s ∈ stepBlock opts n, ∀ sfx ∈ blockIds m, s.id ≠ sfx := by
        intro s hs sfx hsfx he
        have : s.id ∈ blockIds n := by
          rw [← stepBlock_ids opts n]
          exact List.mem_map_of_mem Step.id hs
        exact hnotin sfx hsfx (he ▸ this)
      obtain ⟨ob, op, ou, os, orl, ow⟩ := ih hn2 m hmem
      rw [List.flatMap_cons]
      refine ⟨?_, ?_, ?_, ?_, ?_, ?_⟩ <;>
        rw [statusOf_append_of_ne _ _ _
          (fun s hs => hmem_blk s hs _ (by simp [blockIds]))] <;>
        assumption

theorem deployGo_trace_mono (env : Env) (cfg : ProjectConfig)
    (opts : DeployOptions) (faas : Bool) :
    ∀ (names : List String) (steps : List Step),
      (steps.map Step.id).Nodup →
      (names.flatMap blockIds).Nodup →
      (∀ m ∈ names, okAt steps opts m) →
      ∀ t ∈ (deployGo env cfg opts faas names steps).2.1,
        violatesMonotone t.2.1 t.2.2 = false := by
  intro names
  induction names with
  | nil =>
    intro steps _ _ _ t ht
    exact absurd ht (by simp [deployGo])
  | cons n rest ih =>
    intro steps hnd hbl hok t ht
    have hds := deployService_facts env cfg opts faas n steps hnd
      (hok n (by simp))
    rcases hd : deployService env cfg opts faas n steps with ⟨s', t', e⟩
    rw [hd] at hds
    rw [List.flatMap_cons] at hbl
    obtain ⟨hn1, hn2, hdisj⟩ := List.nodup_append.mp hbl
    cases e with
    | some err =>
      have hgo : deployGo env cfg opts faas (n :: rest) steps =
          (s', t', some err) := by rw [deployGo, hd]
      rw [hgo] at ht
      exact hds.1 t ht
    | none =>
      rcases hgo2 : deployGo env cfg opts faas rest s' with ⟨s'', t'', e2⟩
      have hgo : deployGo env cfg opts faas (n :: rest) steps =
          (s'', t' ++ t'', e2) := by
        rw [deployGo, hd]
        dsimp only
        rw [hgo2]
      rw [hgo] at ht
      rcases List.mem_append.mp ht with h | h
      · exact hds.1 t h
      · have hnd' : (s'.map Step.id).Nodup := by rw [hds.2.1]; exact hnd
        have hok' : ∀ m ∈ rest, okAt s' opts m := by
          intro m hm
          have hnotin : ∀ sfx, sfx ∈ blockIds m → sfx ∉ blockIds n := by
            intro sfx hsfx hin
            exact hdisj hin (List.mem_flatMap.mpr ⟨m, hm, hsfx⟩)
          obtain ⟨ob, op, ou, os, orl, ow⟩ := hok m (by simp [hm])
          refine ⟨?_, ?_, ?_, ?_, ?_, ?_⟩ <;>
            rw [hds.2.2 _ (hnotin _ (by simp [blockIds]))] <;>
            assumption
        have hres := ih s' hnd' hn2 hok' t (by rw [hgo2]; exact h)
        exact hres

/-- C5 corrected: provided all planned step ids are pairwise distinct, every
status transition any orchestrator operation records is monotone: no step
moves from running back to pending and no step whose status is success, error
or skipped ever changes again. -/
theorem spec_c5 (env : Env) (cfg : ProjectConfig) (opts : DeployOptions)
    (hnd : ((planSteps cfg opts).map Step.id).Nodup) :
    ∀ t ∈ (runDeploy env cfg opts).trace,
      violatesMonotone t.2.1 t.2.2 = false := by
  intro t ht
  cases hda : env.dockerAvailable with
  | false => simp [runDeploy, hda] at ht
  | true =>
    have hbl : ((servicesToDeploy cfg opts).flatMap blockIds).Nodup := by
      rw [← planSteps_ids]; exact hnd
    have hok0 : ∀ m ∈ servicesToDeploy cfg opts,
        okAt (planSteps cfg opts) opts m := okAt_flatMap opts _ hbl
    rcases hgo : deployGo env cfg opts (mkFaasClient opts env.credentials)
      (servicesToDeploy cfg opts) (planSteps cfg opts) with ⟨s, tr, e⟩
    cases e with
    | some err =>
      have htr : (runDeploy env cfg opts).trace = tr := by
        simp [runDeploy, hda, hgo]
      apply deployGo_trace_mono env cfg opts (mkFaasClient opts env.credentials)
        (servicesToDeploy cfg opts) (planSteps cfg opts) hnd hbl hok0 t
      rw [hgo]
      exact htr ▸ ht
    | none =>
      have htr : (runDeploy env cfg opts).trace = tr := by
        simp [runDeploy, hda, hgo]
      apply deployGo_trace_mono env cfg opts (mkFaasClient opts env.credentials)
        (servicesToDeploy cfg opts) (planSteps cfg opts) hnd hbl hok0 t
      rw [hgo]
      exact htr ▸ ht

/-- C5 counterexample: selecting the same service twice plans duplicate step
ids, and the second iteration of the loop moves the already-successful build
step back to running — a terminal status changes, refuting the claim as
stated (which assumes nothing about the selection). -/
theorem spec_c5_counterexample :
    ¬ (∀ t ∈ (runDeploy envNoCreds cfgNoFid optsDup).trace,
        violatesMonotone t.2.1 t.2.2 = false) := by decide

/-- Witness for C5 at a duplicate-free run. -/
theorem spec_c5_witness :
    ((planSteps cfgTwo optsTwo).map Step.id).Nodup ∧
    ∀ t ∈ (runDeploy envBase cfgTwo optsTwo).trace,
      violatesMonotone t.2.1 t.2.2 = false :=
  ⟨by decide, spec_c5 envBase cfgTwo optsTwo (by decide)⟩

/-! ## Helper lemmas: the no-FaaS path of one service -/

theorem deployGo_cons_of_none (env : Env) (cfg : ProjectConfig)
    (opts : DeployOptions) (faas : Bool) (n : String) (rest : List String)
    (steps : List Step)
    (h : (deployService env cfg opts faas n steps).2.2 = none) :
    deployGo env cfg opts faas (n :: rest) steps =
      ((deployGo env cfg opts faas rest
          (deployService env cfg opts faas n steps).1).1,
       (deployService env cfg opts faas n steps).2.1 ++
         (deployGo env cfg opts faas rest
           (deployService env cfg opts faas n steps).1).2.1,
       (deployGo env cfg opts faas rest
         (deployService env cfg opts faas n steps).1).2.2) := by
  rcases hd : deployService env cfg opts faas n steps with ⟨s', t', e⟩
  rw [hd] at h
  dsimp only at h
  subst h
  rcases hgo : deployGo env cfg opts faas rest s' with ⟨a, b, c⟩
  rw [deployGo, hd]
  dsimp only
  rw [hgo]

theorem deployService_noFaas (env : Env) (cfg : ProjectConfig)
    (opts : DeployOptions) (faas : Bool) (n : String) (svc : ServiceConfig)
    (hlook : cfg.services.lookup n = some svc)
    (hgate : (faas && svc.functionId != "") = false)
    (hsb : opts.skipBuild = false) (hsp : opts.skipPush = false)
    (hbuild : env.buildResult n (jsOr (opts.versions.lookup n) "latest") =
      .ok ())
    (hpush : env.pushResult (getImageTag cfg.registry svc.imageName
      (jsOr (opts.versions.lookup n) "latest")) = .ok ()) :
    (deployService env cfg opts faas n (stepBlock opts n)).1 =
      [⟨n ++ "-build", "Build " ++ n, .success,
         some (getImageTag cfg.registry svc.imageName
           (jsOr (opts.versions.lookup n) "latest")), some 0⟩,
       ⟨n ++ "-push", "Push " ++ n, .success, none, some 0⟩,
       ⟨n ++ "-update", "Update " ++ n, .skipped,
         some (if !faas then "No credentials" else "No function ID"), none⟩,
       ⟨n ++ "-sync", "Sync " ++ n, .skipped,
         some (if !faas then "No credentials" else "No function ID"), none⟩,
       ⟨n ++ "-release", "Release " ++ n, .skipped,
         some (if !faas then "No credentials" else "No function ID"), none⟩,
       ⟨n ++ "-wait-release", "Wait Release " ++ n, .skipped,
         some (if !faas then "No credentials" else "No function ID"), none⟩]
    ∧ (deployService env cfg opts faas n (stepBlock opts n)).2.2 = none := by
  refine ⟨?_, ?_⟩ <;>
    simp [deployService, hlook, buildPhase, pushPhase, faasPhase, andThen,
      execStep, updateStepT, applyUpdate, stepBlock, hsb, hsp, hbuild, hpush,
      hgate, strAppend_beq, strAppend_cancel_left]

/-- C7: For a service with no configured remote function identifier (or when
no authenticated client exists), the orchestrator marks update, sync, release
and wait-release all skipped with a message identifying the missing
precondition, executes build and push normally (they reach success when their
subprocesses succeed), and continues to the next service with no run
failure. -/
theorem spec_c7 (env : Env) (cfg : ProjectConfig) (opts : DeployOptions)
    (faas : Bool) (n : String) (svc : ServiceConfig)
    (hlook : cfg.services.lookup n = some svc)
    (hgate : faas = false ∨ svc.functionId = "")
    (hsb : opts.skipBuild = false) (hsp : opts.skipPush = false)
    (hbuild : env.buildResult n (jsOr (opts.versions.lookup n) "latest") =
      .ok ())
    (hpush : env.pushResult (getImageTag cfg.registry svc.imageName
      (jsOr (opts.versions.lookup n) "latest")) = .ok ()) :
    (deployService env cfg opts faas n (stepBlock opts n)).1 =
      [⟨n ++ "-build", "Build " ++ n, .success,
         some (getImageTag cfg.registry svc.imageName
           (jsOr (opts.versions.lookup n) "latest")), some 0⟩,
       ⟨n ++ "-push", "Push " ++ n, .success, none, some 0⟩,
       ⟨n ++ "-update", "Update " ++ n, .skipped,
         some (if !faas then "No credentials" else "No function ID"), none⟩,
       ⟨n ++ "-sync", "Sync " ++ n, .skipped,
         some (if !faas then "No credentials" else "No function ID"), none⟩,
       ⟨n ++ "-release", "Release " ++ n, .skipped,
         some (if !faas then "No credentials" else "No function ID"), none⟩,
       ⟨n ++ "-wait-release", "Wait Release " ++ n, .skipped,
         some (if !faas then "No credentials" else "No function ID"), none⟩]
    ∧ (deployService env cfg opts faas n (stepBlock opts n)).2.2 = none
    ∧ ∀ rest : List String,
        deployGo env cfg opts faas (n :: rest) (stepBlock opts n) =
          ((deployGo env cfg opts faas rest
              (deployService env cfg opts faas n (stepBlock opts n)).1).1,
           (deployService env cfg opts faas n (stepBlock opts n)).2.1 ++
             (deployGo env cfg opts faas rest
               (deployService env cfg opts faas n (stepBlock opts n)).1).2.1,
           (deployGo env cfg opts faas rest
             (deployService env cfg opts faas n (stepBlock opts n)).1).2.2) := by
  have hgateB : (faas && svc.functionId != "") = false := by
    rcases hgate with h | h <;> simp [h]
  obtain ⟨h1, h2⟩ := deployService_noFaas env cfg opts faas n svc hlook hgateB
    hsb hsp hbuild hpush
  exact ⟨h1, h2, fun rest => deployGo_cons_of_none env cfg opts faas n rest _ h2⟩

/-- Witness for C7: a service whose function id is empty, with credentials
configured, on concrete inputs. -/
theorem spec_c7_witness :
    cfgNoFid.services.lookup "a" = some svcNoFid ∧
    svcNoFid.functionId = "" ∧
    (deployService envBase cfgNoFid {} true "a" (stepBlock {} "a")).2.2 =
      none ∧
    statusOf (deployService envBase cfgNoFid {} true "a"
      (stepBlock {} "a")).1 ("a" ++ "-update") = some .skipped ∧
    statusOf (deployService envBase cfgNoFid {} true "a"
      (stepBlock {} "a")).1 ("a" ++ "-build") = some .success := by
  have h := spec_c7 envBase cfgNoFid {} true "a" svcNoFid rfl (.inr rfl)
    rfl rfl rfl rfl
  refine ⟨rfl, rfl, h.2.1, ?_, ?_⟩ <;> rw [h.1] <;> decide

/-- C10: With dry-run set, the control-plane client is never constructed —
whatever the credentials — the per-service work reads nothing else from the
dry-run switch (build and push execute exactly as in a non-dry run), and the
four control-plane steps of a service end skipped with the message
`No credentials` even when valid credentials are configured. -/
theorem spec_c10 (env : Env) (cfg : ProjectConfig) (opts : DeployOptions)
    (n : String) (svc : ServiceConfig)
    (hdry : opts.dryRun = true)
    (hlook : cfg.services.lookup n = some svc)
    (hsb : opts.skipBuild = false) (hsp : opts.skipPush = false)
    (hbuild : env.buildResult n (jsOr (opts.versions.lookup n) "latest") =
      .ok ())
    (hpush : env.pushResult (getImageTag cfg.registry svc.imageName
      (jsOr (opts.versions.lookup n) "latest")) = .ok ()) :
    (∀ creds : Credentials, mkFaasClient opts creds = false)
    ∧ (∀ (b faas : Bool) (m : String) (steps : List Step),
        deployService env cfg { opts with dryRun := b } faas m steps =
          deployService env cfg opts faas m steps)
    ∧ (deployService env cfg opts (mkFaasClient opts env.credentials) n
        (stepBlock opts n)).1 =
      [⟨n ++ "-build", "Build " ++ n, .success,
         some (getImageTag cfg.registry svc.imageName
           (jsOr (opts.versions.lookup n) "latest")), some 0⟩,
       ⟨n ++ "-push", "Push " ++ n, .success, none, some 0⟩,
       ⟨n ++ "-update", "Update " ++ n, .skipped, some "No credentials", none⟩,
       ⟨n ++ "-sync", "Sync " ++ n, .skipped, some "No credentials", none⟩,
       ⟨n ++ "-release", "Release " ++ n, .skipped, some "No credentials",
         none⟩,
       ⟨n ++ "-wait-release", "Wait Release " ++ n, .skipped,
         some "No credentials", none⟩]
    ∧ (deployService env cfg opts (mkFaasClient opts env.credentials) n
        (stepBlock opts n)).2.2 = none := by
  have hmk : mkFaasClient opts env.credentials = false := by
    simp [mkFaasClient, hdry]
  have hgateB : (mkFaasClient opts env.credentials &&
      svc.functionId != "") = false := by rw [hmk]; rfl
  obtain ⟨h1, h2⟩ := deployService_noFaas env cfg opts
    (mkFaasClient opts env.credentials) n svc hlook hgateB hsb hsp hbuild hpush
  refine ⟨?_, ?_, ?_, h2⟩
  · intro creds; simp [mkFaasClient, hdry]
  · intro b faas m steps
    cases opts
    rfl
  · rw [h1]
    simp [hmk]

/-- Witness for C10: dry-run with valid credentials on concrete inputs. -/
theorem spec_c10_witness :
    optsDry.dryRun = true ∧
    envBase.credentials.accessKeyId ≠ "" ∧
    envBase.credentials.secretAccessKey ≠ "" ∧
    mkFaasClient optsDry envBase.credentials = false ∧
    statusOf (deployService envBase cfgTwo optsDry
      (mkFaasClient optsDry envBase.credentials) "api"
      (stepBlock optsDry "api")).1 ("api" ++ "-update") = some .skipped ∧
    statusOf (deployService envBase cfgTwo optsDry
      (mkFaasClient optsDry envBase.credentials) "api"
      (stepBlock optsDry "api")).1 ("api" ++ "-build") = some .success := by
  have h := spec_c10 envBase cfgTwo optsDry "api" svcApi rfl rfl rfl rfl
    rfl rfl
  refine ⟨rfl, by decide, by decide, h.1 envBase.credentials, ?_, ?_⟩ <;>
    rw [h.2.2.1] <;> decide

/-- C1 counterexample: when the push subprocess for `api` fails, the catch
handler sets only the run-level error — the push step is left at `running`,
not `error`, refuting the claim's "push step has status error with the
captured stderr as message". -/
theorem spec_c1_counterexample :
    statusOf (runDeploy (envPushFail "denied") cfgTwo optsTwo).steps
      "api-push" = some .running ∧
    statusOf (runDeploy (envPushFail "denied") cfgTwo optsTwo).steps
      "api-push" ≠ some .error ∧
    (runDeploy (envPushFail "denied") cfgTwo optsTwo).error =
      some "denied" := by decide

/-- C1 amended: if the push subprocess for a service exits non-zero, the run
aborts immediately: that service's build step has status success, its push
step is left at status running (the catch handler records no step-level error
and no step message carries the stderr), all later steps of that service and
all steps of every subsequent service remain pending, and the run's terminal
state is error carrying the push failure's message. -/
theorem spec_c1 (msg : String) :
    (runDeploy (envPushFail msg) cfgTwo optsTwo).phase = .error
    ∧ (runDeploy (envPushFail msg) cfgTwo optsTwo).error = some msg
    ∧ statusOf (runDeploy (envPushFail msg) cfgTwo optsTwo).steps
        "api-build" = some .success
    ∧ statusOf (runDeploy (envPushFail msg) cfgTwo optsTwo).steps
        "api-push" = some .running
    ∧ statusOf (runDeploy (envPushFail msg) cfgTwo optsTwo).steps
        "api-update" = some .pending
    ∧ statusOf (runDeploy (envPushFail msg) cfgTwo optsTwo).steps
        "api-sync" = some .pending
    ∧ statusOf (runDeploy (envPushFail msg) cfgTwo optsTwo).steps
        "api-release" = some .pending
    ∧ statusOf (runDeploy (envPushFail msg) cfgTwo optsTwo).steps
        "api-wait-release" = some .pending
    ∧ statusOf (runDeploy (envPushFail msg) cfgTwo optsTwo).steps
        "worker-build" = some .pending
    ∧ statusOf (runDeploy (envPushFail msg) cfgTwo optsTwo).steps
        "worker-push" = some .pending
    ∧ statusOf (runDeploy (envPushFail msg) cfgTwo optsTwo).steps
        "worker-update" = some .pending
    ∧ statusOf (runDeploy (envPushFail msg) cfgTwo optsTwo).steps
        "worker-sync" = some .pending
    ∧ statusOf (runDeploy (envPushFail msg) cfgTwo optsTwo).steps
        "worker-release" = some .pending
    ∧ statusOf (runDeploy (envPushFail msg) cfgTwo optsTwo).steps
        "worker-wait-release" = some .pending :=
  ⟨rfl, rfl, rfl, rfl, rfl, rfl, rfl, rfl, rfl, rfl, rfl, rfl, rfl, rfl⟩

end VefaasDeploy
